import Mathlib

/-!
# Authing management client: credential caching, transport and response unwrapping

A shallow embedding of `lib/management/management_client.go`.

* Go `error` values are modelled by their message text.
* A response body is either bytes that are not JSON, or a JSON value whose
  objects keep the order in which the fields appear in the body; the bytes of
  a JSON value are its compact rendering.
* `simplejson` and `encoding/json` are modelled on the JSON value. `jsoniter`
  is modelled on the bytes, by a transcription of its iterator and of the
  decoders it builds for the response structs, because what it leaves in a
  struct after a type error depends on the bytes that follow.
* The process state is an explicit `World`: the credential cache, the clock
  and the log of the requests handed to the HTTP client.
-/

namespace Authing

/-! ## JSON values and response bodies -/

/-- JSON values. Objects keep their fields in body order. -/
inductive JVal where
  | null : JVal
  | bool (b : Bool) : JVal
  | num (n : Int) : JVal
  | str (s : String) : JVal
  | arr (xs : List JVal) : JVal
  | obj (kvs : List (String × JVal)) : JVal

/-- Go errors, identified by their message text. -/
abbrev GoError := String

/-- A response body as seen by the JSON parsers: bytes whose first token does
not begin a JSON document (an HTML error page, say), or a JSON value. -/
inductive Body where
  | notJson (raw : String) : Body
  | json (v : JVal) : Body

/-- Looking a key up in a decoded Go map: a repeated key keeps its last value. -/
def mapLookup (key : String) : List (String × JVal) → Option JVal
  | [] => none
  | (k, v) :: rest =>
    match mapLookup key rest with
    | some w => some w
    | none => if k = key then some v else none

/-! ## simplejson (the generic probing used by `checkError`) -/

/-- What `simplejson.NewJson` reports on bytes that are not JSON. -/
def errNewJson : GoError := "invalid character looking for beginning of value"

/-- What `(*Json).Array` reports when the value is not an array. -/
def errNotArray : GoError := "type assertion to []interface\x7b\x7d failed"

/-- What `(*Json).String` reports when the value is not a string. -/
def errNotString : GoError := "type assertion to string failed"

/-- The `simplejson.NewJson` constructor: parse the bytes generically. -/
def simplejson_NewJson : Body → Except GoError JVal
  | .notJson _ => .error errNewJson
  | .json v => .ok v

/-- The `(*Json).CheckGet` accessor: the value under `key` when the receiver is
a map holding that key. -/
def Json_CheckGet (j : JVal) (key : String) : Option JVal :=
  match j with
  | .obj kvs => mapLookup key kvs
  | _ => none

/-- The `(*Json).Get` accessor: as `CheckGet`, with a nil `Json` when the key is
missing. -/
def Json_Get (j : JVal) (key : String) : JVal :=
  match Json_CheckGet j key with
  | some v => v
  | none => .null

/-- The `(*Json).Array` accessor. -/
def Json_Array : JVal → Except GoError (List JVal)
  | .arr xs => .ok xs
  | _ => .error errNotArray

/-- The `(*Json).GetIndex` accessor: a nil `Json` when the receiver is not an
array or the index is out of range. -/
def Json_GetIndex (j : JVal) (index : Nat) : JVal :=
  match j with
  | .arr xs =>
    match xs.get? index with
    | some v => v
    | none => .null
  | _ => .null

/-- The `(*Json).String` accessor. -/
def Json_String : JVal → Except GoError String
  | .str s => .ok s
  | _ => .error errNotString

/-- The response unwrapper `checkError`: `none` is Go's nil error. -/
def checkError (b : Body) : Option GoError :=
  match simplejson_NewJson b with
  | .error err => some err
  | .ok json =>
    match Json_CheckGet json "errors" with
    | none => none
    | some repErrors =>
      match Json_Array repErrors with
      | .error err => some err
      | .ok result =>
        if result.length > 0 then
          match Json_String
              (Json_Get (Json_Get (Json_GetIndex (Json_Get json "errors") 0) "message")
                "message") with
          | .error err => some err
          | .ok reason => some reason
        else none

/-! ## Outcomes, clients, requests and the process state -/

/-- The outcome of a Go call returning `(value, error)`: a value with a nil
error, a non-nil error, a run-time panic, or (in the model only) exhausted
recursion fuel. -/
inductive Res (α : Type) where
  | ok (a : α) : Res α
  | err (e : GoError) : Res α
  | panic : Res α
  | outOfFuel : Res α

/-- The constants of package `constant` that the client reads; the package is
not part of the embedded sources, so they are parameters. -/
structure Constants where
  CoreAuthingGraphqlPath : String
  HttpMethodGet : String
  HttpMethodPost : String
  StringEmpty : String
  SdkType : String
  SdkVersion : String
  AppId : String
  AccessTokenDocument : String
  SendMailDocument : String
  CheckLoginStatusDocument : String

/-- Modelled from the spec: the constant `constant.TokenCacheKeyPrefix`, which
is not in the embedded sources; the spec names the cache key
`token:<tenantId>`. -/
def TokenCacheKeyPrefix : String := "token:"

/-- Go's `http.MethodGet`. -/
def http_MethodGet : String := "GET"

/-- Go's `http.MethodPost`. -/
def http_MethodPost : String := "POST"

/-- The fields of `Client` that the requests depend on. -/
structure Client where
  userPoolId : String
  secret : String
  Host : String

/-- A `map[string]interface{}` of request variables; `none` is the nil map. -/
abbrev Vars := Option (List (String × String))

/-- Go's `len` on a map. -/
def Vars.len : Vars → Nat
  | none => 0
  | some kvs => kvs.length

/-- What was written to the request's body buffer. -/
inductive ReqBody where
  | empty : ReqBody
  | graphql (query : String) (vars : Vars) : ReqBody
  | bare (vars : Vars) : ReqBody
deriving DecidableEq

/-- An outgoing HTTP request. -/
structure Request where
  method : String
  url : String
  rawQuery : Option String
  body : ReqBody
  headers : List (String × String)
deriving DecidableEq

/-- The `Header.Add` method. -/
def Request.addHeader (r : Request) (k v : String) : Request :=
  { r with headers := r.headers ++ [(k, v)] }

/-- What `HttpClient.Do` followed by `ioutil.ReadAll` yields. -/
inductive HttpResult where
  | doErr (e : GoError) : HttpResult
  | response (body : Body) (readErr : Option GoError) : HttpResult

/-- The collaborators outside the client: the constants, `http.NewRequest`'s
validation of a method and url, the query-string encoder of `net/url`, and the
remote service behind `HttpClient.Do` (which may depend on the requests it has
already received). -/
structure Env where
  K : Constants
  newRequestErr : String → String → Option GoError
  encodeQuery : String → List (String × String) → String
  httpDo : List Request → Request → HttpResult

/-- A value held by the credential cache (a Go `interface{}`). -/
inductive CacheValue where
  | nil : CacheValue
  | str (s : String) : CacheValue
  | other : CacheValue
deriving DecidableEq

/-- A cache entry: the value and its absolute expiry, in nanoseconds. -/
structure CacheItem where
  value : CacheValue
  expiration : Nat
deriving DecidableEq

/-- The process state: the process-wide credential cache, the clock (in
nanoseconds) and the requests handed to the HTTP client so far. -/
structure World where
  cache : List (String × CacheItem)
  now : Nat
  sent : List Request

/-- The stored entry of a key, expired or not. -/
def cacheEntry (key : String) : List (String × CacheItem) → Option CacheItem
  | [] => none
  | (k, it) :: rest => if k = key then some it else cacheEntry key rest

/-- Modelled from the spec: `cacheutil.GetCache`, which is not in the embedded
sources. `get(key) -> (value, found)`; an entry whose stored expiry has passed
is treated as absent. -/
def GetCache (w : World) (key : String) : CacheValue × Bool :=
  match cacheEntry key w.cache with
  | some it => if it.expiration < w.now then (.nil, false) else (it.value, true)
  | none => (.nil, false)

/-- Modelled from the spec: `cacheutil.SetCache`, which is not in the embedded
sources. `set(key, value, ttl)` overwrites the entry of `key` with the value
and the expiry `now + ttl`. -/
def SetCache (w : World) (key : String) (value : CacheValue) (ttl : Nat) : World :=
  { w with cache := (key, ⟨value, w.now + ttl⟩) :: w.cache.filter (fun e => decide (e.1 ≠ key)) }

/-- Go's `time.Hour`, in nanoseconds. -/
def time_Hour : Nat := 3600 * 1000000000

/-- Go's `strings.HasPrefix`. -/
def strings_HasPrefix (s pre : String) : Bool := pre.data.isPrefixOf s.data

/-! ## The bytes of a body -/

/-- The double quote byte. -/
def chQuote : Char := Char.ofNat 34

/-- The backslash byte. -/
def chBackslash : Char := Char.ofNat 92

/-- A hexadecimal digit, in lower case. -/
def hexDigit (n : Nat) : Char := if n < 10 then Char.ofNat (48 + n) else Char.ofNat (87 + n)

/-- The bytes of a character inside a JSON string: the quote, the backslash and
the control characters are escaped. -/
def renderChar (c : Char) : List Char :=
  if c == chQuote then [chBackslash, chQuote]
  else if c == chBackslash then [chBackslash, chBackslash]
  else if c.toNat < 32 then
    [chBackslash, 'u', '0', '0', hexDigit (c.toNat / 16), hexDigit (c.toNat % 16)]
  else [c]

/-- The bytes of a JSON string. -/
def renderString (s : String) : List Char := chQuote :: s.data.flatMap renderChar ++ [chQuote]

/-- The bytes of an integer. -/
def renderInt (n : Int) : List Char :=
  if n < 0 then '-' :: Nat.toDigits 10 n.natAbs else Nat.toDigits 10 n.toNat

mutual
/-- The compact rendering of a JSON value. -/
def render : JVal → List Char
  | .null => ['n', 'u', 'l', 'l']
  | .bool true => ['t', 'r', 'u', 'e']
  | .bool false => ['f', 'a', 'l', 's', 'e']
  | .num n => renderInt n
  | .str s => renderString s
  | .arr xs => '[' :: renderElems xs ++ [']']
  | .obj kvs => '{' :: renderFields kvs ++ ['}']
/-- The elements of an array, separated by commas. -/
def renderElems : List JVal → List Char
  | [] => []
  | [v] => render v
  | v :: w :: rest => render v ++ ',' :: renderElems (w :: rest)
/-- The fields of an object, separated by commas. -/
def renderFields : List (String × JVal) → List Char
  | [] => []
  | [(k, v)] => renderString k ++ ':' :: render v
  | (k, v) :: kv :: rest => renderString k ++ ':' :: render v ++ ',' :: renderFields (kv :: rest)
end

/-- The bytes of a response body. -/
def bodyBytes : Body → List Char
  | .notJson raw => raw.data
  | .json v => render v

/-! ## Typed decoding with `jsoniter`

The operation methods decode with `jsoniter.Unmarshal` and drop the error it
returns. After a value of the wrong JSON type the iterator records the error
and the decoders go on reading from wherever the failed read left the head, so
the struct they leave depends on the bytes. The definitions below transcribe
the iterator (`nextToken`, `unreadByte`, `ReadString`, `readFieldHash`, `Skip`
and the rest) and the decoders that `jsoniter` builds for the response structs.

Two things are model only: recursion is bounded by a fuel argument, and an
iterator that ran out of it is marked `starved`. -/

/-- The state of `iter.Error`: nil, `io.EOF`, or an error reported by a reader. -/
inductive IterError where
  | nil : IterError
  | eof : IterError
  | failed : IterError
deriving DecidableEq

/-- A `jsoniter.Iterator` over a byte slice: `buf` is `iter.buf[iter.head:iter.tail]`. -/
structure Iterator where
  buf : List Char
  Error : IterError
  depth : Int
  starved : Bool

/-- The white space that `nextToken` skips. -/
def isSpace (c : Char) : Bool :=
  c == ' ' || c == Char.ofNat 10 || c == Char.ofNat 9 || c == Char.ofNat 13

/-- The method `loadMore` of an iterator without a reader. -/
def Iterator.loadMore (it : Iterator) : Iterator :=
  match it.Error with
  | .nil => { it with buf := [], Error := .eof }
  | _ => it

/-- The method `ReportError`: the first error other than `io.EOF` is kept. -/
def Iterator.ReportError (it : Iterator) : Iterator :=
  match it.Error with
  | .failed => it
  | _ => { it with Error := .failed }

/-- The first byte that is not white space, and what follows it. -/
def skipSpaces : List Char → Option (Char × List Char)
  | [] => none
  | c :: rest => if isSpace c then skipSpaces rest else some (c, rest)

/-- The method `nextToken`; it returns the byte 0 at the end of the input. -/
def Iterator.nextToken (it : Iterator) : Char × Iterator :=
  match skipSpaces it.buf with
  | some (c, rest) => (c, { it with buf := rest })
  | none => (Char.ofNat 0, it.loadMore)

/-- The method `readByte`. -/
def Iterator.readByte (it : Iterator) : Char × Iterator :=
  match it.buf with
  | c :: rest => (c, { it with buf := rest })
  | [] => (Char.ofNat 0, it.loadMore)

/-- The method `unreadByte`, given the byte that was read last: it does nothing
once `iter.Error` is set. -/
def Iterator.unreadByte (it : Iterator) (c : Char) : Iterator :=
  match it.Error with
  | .nil => { it with buf := c :: it.buf }
  | _ => it

/-- The method `skipThreeBytes`. -/
def Iterator.skipThreeBytes (it : Iterator) (b1 b2 b3 : Char) : Iterator :=
  if it.readByte.1 != b1 then it.readByte.2.ReportError
  else if it.readByte.2.readByte.1 != b2 then it.readByte.2.readByte.2.ReportError
  else if it.readByte.2.readByte.2.readByte.1 != b3 then
    it.readByte.2.readByte.2.readByte.2.ReportError
  else it.readByte.2.readByte.2.readByte.2

/-- The method `skipFourBytes`. -/
def Iterator.skipFourBytes (it : Iterator) (b1 b2 b3 b4 : Char) : Iterator :=
  if it.readByte.1 != b1 then it.readByte.2.ReportError
  else if it.readByte.2.readByte.1 != b2 then it.readByte.2.readByte.2.ReportError
  else if it.readByte.2.readByte.2.readByte.1 != b3 then
    it.readByte.2.readByte.2.readByte.2.ReportError
  else if it.readByte.2.readByte.2.readByte.2.readByte.1 != b4 then
    it.readByte.2.readByte.2.readByte.2.readByte.2.ReportError
  else it.readByte.2.readByte.2.readByte.2.readByte.2

/-- The method `ReadNil`. -/
def Iterator.ReadNil (it : Iterator) : Bool × Iterator :=
  if it.nextToken.1 == 'n' then (true, it.nextToken.2.skipThreeBytes 'u' 'l' 'l')
  else (false, it.nextToken.2.unreadByte it.nextToken.1)

/-- The method `incrementDepth`. -/
def Iterator.incrementDepth (it : Iterator) : Bool × Iterator :=
  if it.depth + 1 ≤ 10000 then (true, { it with depth := it.depth + 1 })
  else (false, { it with depth := it.depth + 1 }.ReportError)

/-- The method `decrementDepth`. -/
def Iterator.decrementDepth (it : Iterator) : Bool × Iterator :=
  if 0 ≤ it.depth - 1 then (true, { it with depth := it.depth - 1 })
  else (false, { it with depth := it.depth - 1 }.ReportError)

/-- The method `readObjectStart`. -/
def Iterator.readObjectStart (it : Iterator) : Bool × Iterator :=
  if it.nextToken.1 == '{' then
    if it.nextToken.2.nextToken.1 == '}' then (false, it.nextToken.2.nextToken.2)
    else (true, it.nextToken.2.nextToken.2.unreadByte it.nextToken.2.nextToken.1)
  else if it.nextToken.1 == 'n' then (false, it.nextToken.2.skipThreeBytes 'u' 'l' 'l')
  else (false, it.nextToken.2.ReportError)

/-- The method `isObjectEnd`. -/
def Iterator.isObjectEnd (it : Iterator) : Bool × Iterator :=
  if it.nextToken.1 == ',' then (false, it.nextToken.2)
  else if it.nextToken.1 == '}' then (true, it.nextToken.2)
  else (true, it.nextToken.2.ReportError)

/-- The Unicode replacement character, which `appendRune` writes for a
surrogate. -/
def runeError : Char := Char.ofNat 65533

/-- The value of a hexadecimal digit, as `readU4` reads it. -/
def hexVal (c : Char) : Option Nat :=
  if 48 ≤ c.toNat ∧ c.toNat ≤ 57 then some (c.toNat - 48)
  else if 97 ≤ c.toNat ∧ c.toNat ≤ 102 then some (c.toNat - 97 + 10)
  else if 65 ≤ c.toNat ∧ c.toNat ≤ 70 then some (c.toNat - 65 + 10)
  else none

/-- The loop of `readU4`, with the number of digits still to read. -/
def readU4Loop : Nat → Iterator → Nat → Nat × Iterator
  | 0, it, ret => (ret, it)
  | n + 1, it, ret =>
    if it.readByte.2.Error ≠ .nil then (ret, it.readByte.2)
    else
      match hexVal it.readByte.1 with
      | some d => readU4Loop n it.readByte.2 (ret * 16 + d)
      | none => (ret, it.readByte.2.ReportError)

/-- The method `readU4`. -/
def Iterator.readU4 (it : Iterator) : Nat × Iterator := readU4Loop 4 it 0

/-- The rune that `appendRune` writes for a code unit read by `readU4`. -/
def runeOf (r : Nat) : Char :=
  if 55296 ≤ r ∧ r ≤ 57343 then runeError else Char.ofNat r

/-- The escapes of `readEscapedChar` other than `\u`; `none` is the nil slice
returned on an invalid escape. -/
def readEscapedSimple (it : Iterator) (c : Char) (str : List Char) :
    Option (List Char) × Iterator :=
  if c == chQuote then (some (str ++ [chQuote]), it)
  else if c == chBackslash then (some (str ++ [chBackslash]), it)
  else if c == '/' then (some (str ++ ['/']), it)
  else if c == 'b' then (some (str ++ [Char.ofNat 8]), it)
  else if c == 'f' then (some (str ++ [Char.ofNat 12]), it)
  else if c == 'n' then (some (str ++ [Char.ofNat 10]), it)
  else if c == 'r' then (some (str ++ [Char.ofNat 13]), it)
  else if c == 't' then (some (str ++ [Char.ofNat 9]), it)
  else (none, it.ReportError)

/-- The method `readEscapedChar`, for the byte `c` that follows a backslash. -/
def Iterator.readEscapedChar (it : Iterator) (c : Char) (str : List Char) :
    Option (List Char) × Iterator :=
  if c == 'u' then
    let r := it.readU4.1
    let it1 := it.readU4.2
    if 55296 ≤ r ∧ r < 57344 then
      let c1 := it1.readByte.1
      let it2 := it1.readByte.2
      if it2.Error ≠ .nil then (none, it2)
      else if c1 != chBackslash then (some (str ++ [runeOf r]), it2.unreadByte c1)
      else
        let c2 := it2.readByte.1
        let it3 := it2.readByte.2
        if it3.Error ≠ .nil then (none, it3)
        else if c2 != 'u' then readEscapedSimple it3 c2 (str ++ [runeOf r])
        else
          let r2 := it3.readU4.1
          let it4 := it3.readU4.2
          if it4.Error ≠ .nil then (none, it4)
          else if r < 56320 ∧ 56320 ≤ r2 ∧ r2 < 57344 then
            (some (str ++ [Char.ofNat ((r - 55296) * 1024 + (r2 - 56320) + 65536)]), it4)
          else (some (str ++ [runeOf r, runeOf r2]), it4)
    else (some (str ++ [runeOf r]), it1)
  else readEscapedSimple it c str

/-- The loop of `readStringSlowPath`; the first argument bounds the number of
rounds by the number of bytes left. -/
def readStringSlowLoop : Nat → Iterator → List Char → String × Iterator
  | 0, it, _ => ("", { it with starved := true })
  | fuel + 1, it, str =>
    if it.Error ≠ .nil then ("", it.ReportError)
    else if it.readByte.1 == chQuote then (String.mk str, it.readByte.2)
    else if it.readByte.1 == chBackslash then
      match it.readByte.2.readByte.2.readEscapedChar it.readByte.2.readByte.1 str with
      | (some str1, it1) => readStringSlowLoop fuel it1 str1
      | (none, it1) => readStringSlowLoop fuel it1 []
    else readStringSlowLoop fuel it.readByte.2 (str ++ [it.readByte.1])

/-- The method `readStringSlowPath`. -/
def Iterator.readStringSlowPath (it : Iterator) : String × Iterator :=
  readStringSlowLoop (it.buf.length + 2) it []

/-- What the scan of the fast path of `ReadString` finds first. -/
inductive StringScan where
  | closed (s rest : List Char) : StringScan
  | slow : StringScan
  | control : StringScan

/-- The scan of the fast path of `ReadString`, from the byte after the opening
quote. -/
def scanString : List Char → List Char → StringScan
  | [], _ => .slow
  | c :: rest, acc =>
    if c == chQuote then .closed acc.reverse rest
    else if c == chBackslash then .slow
    else if c.toNat < 32 then .control
    else scanString rest (c :: acc)

/-- The method `ReadString`. -/
def Iterator.ReadString (it : Iterator) : String × Iterator :=
  if it.nextToken.1 == chQuote then
    match scanString it.nextToken.2.buf [] with
    | .closed s rest => (String.mk s, { it.nextToken.2 with buf := rest })
    | .control => ("", it.nextToken.2.ReportError)
    | .slow => it.nextToken.2.readStringSlowPath
  else if it.nextToken.1 == 'n' then ("", it.nextToken.2.skipThreeBytes 'u' 'l' 'l')
  else ("", it.nextToken.2.ReportError)

/-- One round of the field hash, on one byte. -/
def hashStep (hash b : Nat) : Nat := ((hash ^^^ b) * 16777619) % 18446744073709551616

/-- The lower-casing of an ASCII byte in `readFieldHash`. -/
def lowerByte (b : Nat) : Nat := if 65 ≤ b ∧ b ≤ 90 then b + 32 else b

/-- The UTF-8 bytes of a character. -/
def utf8Bytes (c : Char) : List Nat := (String.utf8EncodeChar c).map (fun b => b.toNat)

/-- The function `calcHash` of a field name that is already in lower case. -/
def calcHash (name : String) : Nat :=
  (name.data.flatMap utf8Bytes).foldl hashStep 2166136261

/-- The scan of `readFieldHash`, from the byte after the opening quote of the
key. -/
def readFieldHashScan (it : Iterator) : List Char → Nat → Nat × Iterator
  | [], _ => (0, it.loadMore.ReportError)
  | b :: rest, hash =>
    if b == chBackslash then
      let s := ({ it with buf := b :: rest } : Iterator).readStringSlowPath
      if s.2.nextToken.1 != ':' then (0, s.2.nextToken.2.ReportError)
      else (s.1.data.foldl (fun h c => hashStep h (lowerByte c.toNat)) hash, s.2.nextToken.2)
    else if b == chQuote then
      let it1 : Iterator := { it with buf := rest }
      if it1.nextToken.1 != ':' then (0, it1.nextToken.2.ReportError)
      else (hash, it1.nextToken.2)
    else readFieldHashScan it rest ((utf8Bytes b).foldl (fun h x => hashStep h (lowerByte x)) hash)

/-- The method `readFieldHash`. -/
def Iterator.readFieldHash (it : Iterator) : Nat × Iterator :=
  if it.nextToken.1 != chQuote then (0, it.nextToken.2.ReportError)
  else readFieldHashScan it.nextToken.2 it.nextToken.2.buf 2166136261

/-- The table `intDigits`: the value of a decimal digit. -/
def digitVal (c : Char) : Option Nat :=
  if 48 ≤ c.toNat ∧ c.toNat ≤ 57 then some (c.toNat - 48) else none

/-- The method `assertInteger`. -/
def Iterator.assertInteger (it : Iterator) : Iterator :=
  match it.buf with
  | c :: _ => if c == '.' then it.ReportError else it
  | [] => it

/-- The constant `uint64SafeToMultiple10`. -/
def uint64SafeToMultiple10 : Nat := 1844674407370955160

/-- The unrolled part of `readUint64`: up to `n` further digits; the flag tells
that a byte that is not a digit was met. -/
def readDigitsUnrolled : Nat → List Char → Nat → Nat × List Char × Bool
  | 0, buf, value => (value, buf, false)
  | _ + 1, [], value => (value, [], true)
  | n + 1, c :: rest, value =>
    match digitVal c with
    | some d => readDigitsUnrolled n rest (value * 10 + d)
    | none => (value, c :: rest, true)

/-- The loop of `readUint64` from `start`, whose head moves only when the loop
returns normally. -/
def readUint64Loop (start : Iterator) : List Char → Nat → Nat × Iterator
  | [], value => (value, start.loadMore.assertInteger)
  | c :: rest, value =>
    match digitVal c with
    | none => (value, ({ start with buf := c :: rest } : Iterator).assertInteger)
    | some d =>
      if value > uint64SafeToMultiple10 then
        if (value * 10 + d) % 18446744073709551616 < value then (0, start.ReportError)
        else readUint64Loop start rest ((value * 10 + d) % 18446744073709551616)
      else readUint64Loop start rest (value * 10 + d)

/-- The method `readUint64`, for the first byte `c`. -/
def Iterator.readUint64 (it : Iterator) (c : Char) : Nat × Iterator :=
  match digitVal c with
  | none => (0, it.ReportError)
  | some 0 => (0, it.assertInteger)
  | some ind =>
    if it.buf.length > 10 then
      match readDigitsUnrolled 7 it.buf ind with
      | (value, buf1, true) => (value, ({ it with buf := buf1 } : Iterator).assertInteger)
      | (value, buf1, false) => readUint64Loop { it with buf := buf1 } buf1 value
    else readUint64Loop it it.buf ind

/-- The method `ReadInt64`. -/
def Iterator.ReadInt64 (it : Iterator) : Int × Iterator :=
  if it.nextToken.1 == '-' then
    let r := it.nextToken.2.readByte.2.readUint64 it.nextToken.2.readByte.1
    if r.1 > 9223372036854775808 then (0, r.2.ReportError) else (-(r.1 : Int), r.2)
  else
    let r := it.nextToken.2.readUint64 it.nextToken.1
    if r.1 > 9223372036854775807 then (0, r.2.ReportError) else ((r.1 : Int), r.2)

/-- The method `ReadBool`. -/
def Iterator.ReadBool (it : Iterator) : Bool × Iterator :=
  if it.nextToken.1 == 't' then (true, it.nextToken.2.skipThreeBytes 'r' 'u' 'e')
  else if it.nextToken.1 == 'f' then (false, it.nextToken.2.skipFourBytes 'a' 'l' 's' 'e')
  else (false, it.nextToken.2.ReportError)

/-! ### Numbers that are skipped

`Skip` reads a number it has to skip as a float when the number begins with `0`
or is not followed by a delimiter. Only the bytes consumed and the error state
matter here; of the errors of `strconv.ParseFloat` and `big.ParseFloat`, the
syntax errors and the overflow of `float32` and `float64` are modelled. -/

/-- The classes of the table `floatDigits`. -/
inductive FloatClass where
  | digit (d : Nat) : FloatClass
  | endOfNumber : FloatClass
  | dotInNumber : FloatClass
  | invalid : FloatClass

/-- The table `floatDigits`. -/
def floatDigits (c : Char) : FloatClass :=
  match digitVal c with
  | some d => .digit d
  | none =>
    if c == ',' || c == ']' || c == '}' || c == ' ' || c == Char.ofNat 9 || c == Char.ofNat 10 then
      .endOfNumber
    else if c == '.' then .dotInNumber
    else .invalid

/-- The bytes that `readNumberAsString` collects. -/
def isNumberByte (c : Char) : Bool :=
  c == '+' || c == '-' || c == '.' || c == 'e' || c == 'E' || (48 ≤ c.toNat && c.toNat ≤ 57)

/-- The method `readNumberAsString`. -/
def Iterator.readNumberAsString (it : Iterator) : List Char × Iterator :=
  let str := it.buf.takeWhile isNumberByte
  let it1 : Iterator :=
    match it.buf.dropWhile isNumberByte with
    | [] => it.loadMore
    | c :: rest => { it with buf := c :: rest }
  if it1.Error = .failed then ([], it1)
  else if str.length = 0 then (str, it1.ReportError)
  else (str, it1)

/-- The function `validateFloat`: whether the text passes. -/
def validateFloat (str : List Char) : Bool :=
  match str with
  | [] => false
  | c :: _ =>
    if c == '-' then false
    else
      match str.dropWhile (fun x => x != '.') with
      | [] => true
      | [_] => false
      | _ :: d :: _ => (digitVal d).isSome

/-- The decimal digits at the head of a text, their number and value, and the
rest. -/
def takeDigits : List Char → Nat → Nat → Nat × Nat × List Char
  | [], n, value => (n, value, [])
  | c :: rest, n, value =>
    match digitVal c with
    | some d => takeDigits rest (n + 1) (value * 10 + d)
    | none => (n, value, c :: rest)

/-- A text of the grammar of `strconv.ParseFloat` over the bytes of a number:
the digits of the mantissa as a number and the decimal exponent, or `none` on a
syntax error. -/
def parseFloatText (str : List Char) : Option (Nat × Int) :=
  let body := match str with
    | c :: rest => if c == '+' || c == '-' then rest else str
    | [] => str
  let ip := takeDigits body 0 0
  let fp : Nat × Nat × List Char := match ip.2.2 with
    | c :: rest => if c == '.' then takeDigits rest 0 ip.2.1 else (0, ip.2.1, ip.2.2)
    | [] => (0, ip.2.1, [])
  if ip.1 + fp.1 = 0 then none
  else
    match fp.2.2 with
    | [] => some (fp.2.1, -(fp.1 : Int))
    | c :: rest =>
      if c == 'e' || c == 'E' then
        let neg := match rest with
          | s :: _ => s == '-'
          | [] => false
        let digits := match rest with
          | s :: rest1 => if s == '+' || s == '-' then rest1 else rest
          | [] => rest
        let ep := takeDigits digits 0 0
        if ep.1 = 0 then none
        else
          match ep.2.2 with
          | [] => some (fp.2.1, (if neg then -(ep.2.1 : Int) else (ep.2.1 : Int)) - (fp.1 : Int))
          | _ :: _ => none
      else none

/-- Whether the decimal `m * 10 ^ e` rounds to an infinite float of the given
bound (the midpoint above the largest finite value). -/
def floatOverflows (bound : Nat) (m : Nat) (e : Int) : Bool :=
  m != 0 && (if 0 ≤ e then decide (bound ≤ m * 10 ^ e.toNat) else decide (bound * 10 ^ (-e).toNat ≤ m))

/-- The midpoint above the largest finite `float32`. -/
def float32Bound : Nat := 340282356779733661637539395458142568448

/-- The midpoint above the largest finite `float64`. -/
def float64Bound : Nat :=
  179769313486231580793728971405303415079934132710037826936173778980444968292764750946649017977587207096330286416692887910946555547851940402630657488671505820681908902000708383676273854845817711531764475730270069855571366959622842914819860834936475292719074168444365510704342711559699508093042880177904174497792

/-- The methods `readFloat32SlowPath` and `readFloat64SlowPath`, for the
overflow bound of the float size. -/
def Iterator.readFloatSlowPath (bound : Nat) (it : Iterator) : Iterator :=
  let r := it.readNumberAsString
  if r.2.Error = .failed then r.2
  else if !validateFloat r.1 then r.2.ReportError
  else
    match parseFloatText r.1 with
    | none => { r.2 with Error := .failed }
    | some (m, e) => if floatOverflows bound m e then { r.2 with Error := .failed } else r.2

/-- The loop over the digits after the dot in `readPositiveFloat32`. -/
def floatDecimalLoop (bound : Nat) (start : Iterator) : List Char → Nat → Nat → Iterator
  | [], _, _ => start.readFloatSlowPath bound
  | c :: rest, value, decimalPlaces =>
    match floatDigits c with
    | .endOfNumber =>
      if 0 < decimalPlaces ∧ decimalPlaces < 7 then { start with buf := c :: rest }
      else start.readFloatSlowPath bound
    | .invalid => start.readFloatSlowPath bound
    | .dotInNumber => start.readFloatSlowPath bound
    | .digit d =>
      if value > uint64SafeToMultiple10 then start.readFloatSlowPath bound
      else floatDecimalLoop bound start rest (value * 10 + d) (decimalPlaces + 1)

/-- The loop over the digits before the dot in `readPositiveFloat32`. -/
def floatIntegerLoop (bound : Nat) (start : Iterator) : List Char → Nat → Iterator
  | [], _ => start.readFloatSlowPath bound
  | c :: rest, value =>
    match floatDigits c with
    | .invalid => start.readFloatSlowPath bound
    | .endOfNumber => { start with buf := c :: rest }
    | .dotInNumber =>
      match rest with
      | [] => start.readFloatSlowPath bound
      | _ :: _ => floatDecimalLoop bound start rest value 0
    | .digit d =>
      if value > uint64SafeToMultiple10 then start.readFloatSlowPath bound
      else floatIntegerLoop bound start rest (value * 10 + d)

/-- The methods `readPositiveFloat32` and `readPositiveFloat64`. -/
def Iterator.readPositiveFloat (bound : Nat) (it : Iterator) : Iterator :=
  match it.buf with
  | [] => it.readFloatSlowPath bound
  | c :: rest =>
    match floatDigits c with
    | .invalid => it.readFloatSlowPath bound
    | .endOfNumber => it.ReportError
    | .dotInNumber => it.ReportError
    | .digit 0 =>
      match rest with
      | [] => it.readFloatSlowPath bound
      | c2 :: _ =>
        if (digitVal c2).isSome then it.ReportError else floatIntegerLoop bound it rest 0
    | .digit d => floatIntegerLoop bound it rest d

/-- The methods `ReadFloat32` and `ReadFloat64`. -/
def Iterator.ReadFloat (bound : Nat) (it : Iterator) : Iterator :=
  if it.nextToken.1 == '-' then it.nextToken.2.readPositiveFloat bound
  else (it.nextToken.2.unreadByte it.nextToken.1).readPositiveFloat bound

/-- The method `ReadBigFloat`. -/
def Iterator.ReadBigFloat (it : Iterator) : Iterator :=
  let r := it.readNumberAsString
  if r.2.Error = .failed then r.2
  else
    match parseFloatText r.1 with
    | none => { r.2 with Error := .failed }
    | some _ => r.2

/-- What the scan of `trySkipNumber` ends in. -/
inductive NumberScan where
  | skipped (rest : List Char) : NumberScan
  | failed : NumberScan
  | undecided : NumberScan

/-- The scan of `trySkipNumber`; `first` tells that no byte was passed yet. -/
def scanNumber : List Char → Bool → Bool → NumberScan
  | [], _, _ => .undecided
  | c :: rest, dotFound, first =>
    if (digitVal c).isSome then scanNumber rest dotFound false
    else if c == '.' then
      if dotFound then .failed
      else
        match rest with
        | [] => .undecided
        | c2 :: _ => if (digitVal c2).isSome then scanNumber rest true false else .failed
    else if c == ',' || c == ']' || c == '}' || c == ' ' || c == Char.ofNat 9 || c == Char.ofNat 10
        || c == Char.ofNat 13 then
      if first then .undecided else .skipped (c :: rest)
    else .undecided

/-- The method `skipNumber`, after `Skip` has read the first byte `c`. -/
def Iterator.skipNumber (it : Iterator) (c : Char) : Iterator :=
  match scanNumber it.buf false true with
  | .skipped rest => { it with buf := rest }
  | .failed => it.ReportError
  | .undecided =>
    let it1 := it.unreadByte c
    if it1.Error = .failed then it1
    else
      let it2 := it1.ReadFloat float64Bound
      if it2.Error = .failed then ({ it2 with Error := .nil } : Iterator).ReadBigFloat else it2

/-- What the scan of `trySkipString` ends in. -/
inductive SkipStringScan where
  | skipped (rest : List Char) : SkipStringScan
  | failed : SkipStringScan
  | undecided : SkipStringScan

/-- The scan of `trySkipString`. -/
def scanSkipString : List Char → SkipStringScan
  | [] => .undecided
  | c :: rest =>
    if c == chQuote then .skipped rest
    else if c == chBackslash then .undecided
    else if c.toNat < 32 then .failed
    else scanSkipString rest

/-- The method `skipString`, after `Skip` has read the opening quote. -/
def Iterator.skipString (it : Iterator) : Iterator :=
  match scanSkipString it.buf with
  | .skipped rest => { it with buf := rest }
  | .failed => it.ReportError
  | .undecided => (it.unreadByte chQuote).ReadString.2

/-! ### Skipping a value -/

/-- Marking that the model ran out of fuel. -/
def Iterator.starve (it : Iterator) : Iterator := { it with starved := true }

mutual
/-- The method `Skip`. -/
def skip : Nat → Iterator → Iterator
  | 0, it => it.starve
  | fuel + 1, it =>
    let c := it.nextToken.1
    let it1 := it.nextToken.2
    if c == chQuote then it1.skipString
    else if c == 'n' then it1.skipThreeBytes 'u' 'l' 'l'
    else if c == 't' then it1.skipThreeBytes 'r' 'u' 'e'
    else if c == 'f' then it1.skipFourBytes 'a' 'l' 's' 'e'
    else if c == '0' then (it1.unreadByte c).ReadFloat float32Bound
    else if c == '-' || (49 ≤ c.toNat && c.toNat ≤ 57) then it1.skipNumber c
    else if c == '[' then skipArrayCB fuel (it1.unreadByte c)
    else if c == '{' then skipObjectCB fuel (it1.unreadByte c)
    else it1.ReportError
/-- The method `ReadObjectCB` with the callback of `skipObject`, which skips the
value of each field. -/
def skipObjectCB : Nat → Iterator → Iterator
  | 0, it => it.starve
  | fuel + 1, it =>
    let c := it.nextToken.1
    let it1 := it.nextToken.2
    if c == '{' then
      if !it1.incrementDepth.1 then it1.incrementDepth.2
      else
        let c2 := it1.incrementDepth.2.nextToken.1
        let it2 := it1.incrementDepth.2.nextToken.2
        if c2 == chQuote then
          let it3 := (it2.unreadByte c2).ReadString.2
          let it4 := if it3.nextToken.1 != ':' then it3.nextToken.2.ReportError else it3.nextToken.2
          skipObjectLoop fuel (skip fuel it4)
        else if c2 == '}' then it2.decrementDepth.2
        else it2.ReportError.decrementDepth.2
    else if c == 'n' then it1.skipThreeBytes 'u' 'l' 'l'
    else it1.ReportError
/-- The loop of `ReadObjectCB` over the fields after the first. -/
def skipObjectLoop : Nat → Iterator → Iterator
  | 0, it => it.starve
  | fuel + 1, it =>
    let c := it.nextToken.1
    let it1 := it.nextToken.2
    if c == ',' then
      let it3 := it1.ReadString.2
      let it4 := if it3.nextToken.1 != ':' then it3.nextToken.2.ReportError else it3.nextToken.2
      skipObjectLoop fuel (skip fuel it4)
    else if c != '}' then it1.ReportError.decrementDepth.2
    else it1.decrementDepth.2
/-- The method `ReadArrayCB` with the callback of `skipArray`, which skips each
element. -/
def skipArrayCB : Nat → Iterator → Iterator
  | 0, it => it.starve
  | fuel + 1, it =>
    let c := it.nextToken.1
    let it1 := it.nextToken.2
    if c == '[' then
      if !it1.incrementDepth.1 then it1.incrementDepth.2
      else
        let c2 := it1.incrementDepth.2.nextToken.1
        let it2 := it1.incrementDepth.2.nextToken.2
        if c2 != ']' then skipArrayLoop fuel (skip fuel (it2.unreadByte c2))
        else it2.decrementDepth.2
    else if c == 'n' then it1.skipThreeBytes 'u' 'l' 'l'
    else it1.ReportError
/-- The loop of `ReadArrayCB` over the elements after the first. -/
def skipArrayLoop : Nat → Iterator → Iterator
  | 0, it => it.starve
  | fuel + 1, it =>
    let c := it.nextToken.1
    let it1 := it.nextToken.2
    if c == ',' then skipArrayLoop fuel (skip fuel it1)
    else if c != ']' then it1.ReportError.decrementDepth.2
    else it1.decrementDepth.2
end

/-! ### Value decoders -/

/-- A `ValDecoder` for a Go type: given fuel, it decodes into the current value
at the iterator. -/
abbrev ValDecoder (α : Type) := Nat → α → Iterator → α × Iterator

/-- The decoder `stringCodec`. -/
def stringCodec : ValDecoder String := fun _ _ it => it.ReadString

/-- The decoder `int64Codec`. -/
def int64Codec : ValDecoder Int := fun _ cur it =>
  if it.ReadNil.1 then (cur, it.ReadNil.2) else it.ReadNil.2.ReadInt64

/-- The decoder `boolCodec`. -/
def boolCodec : ValDecoder Bool := fun _ cur it =>
  if it.ReadNil.1 then (cur, it.ReadNil.2) else it.ReadNil.2.ReadBool

/-- A field of a struct type `α`: its name in the `json` tag and the decoder
that decodes into that field of the struct. -/
structure StructField (α : Type) where
  name : String
  decode : ValDecoder α

/-- The lower-casing of `strings.ToLower`, on the characters whose lower case is
an ASCII letter (the ASCII capitals, the Kelvin sign and the dotted capital I). -/
def goLowerChar (c : Char) : Char :=
  if c.toNat = 8490 then 'k' else if c.toNat = 304 then 'i' else c.toLower

/-- The lower-casing of `strings.ToLower`, as far as it can produce a name in
ASCII. -/
def goLower (s : String) : String := String.mk (s.data.map goLowerChar)

/-- The map `fields` that `decoderOfStruct` builds: every tag name, and its
lower-case form where that is not yet a key. -/
def fieldEntries {α : Type} (fields : List (StructField α)) : List (StructField α) :=
  fields.foldl
    (fun acc f =>
      if acc.any (fun g => g.name == goLower f.name) then acc
      else acc ++ [{ f with name := goLower f.name }])
    fields

/-- Whether `createStructDecoder` meets a hash it already knows (0 is known from
the start), and so falls back on the general decoder. -/
def hashesCollide : List Nat → List Nat → Bool
  | [], _ => false
  | h :: rest, known => known.contains h || hashesCollide rest (h :: known)

/-- The loop of the struct decoders specialised by number of fields: the key is
matched by its hash. -/
def structHashLoop {α : Type} (fields : List (StructField α)) : Nat → α → Iterator → α × Iterator
  | 0, a, it => (a, it.starve)
  | fuel + 1, a, it =>
    let r : α × Iterator :=
      match fields.find? (fun f => calcHash (goLower f.name) == it.readFieldHash.1) with
      | some f => f.decode fuel a it.readFieldHash.2
      | none => (a, skip fuel it.readFieldHash.2)
    if r.2.isObjectEnd.1 then (r.1, r.2.isObjectEnd.2)
    else structHashLoop fields fuel r.1 r.2.isObjectEnd.2

/-- The method `decodeOneField` of `generalStructDecoder`. -/
def decodeOneField {α : Type} (fields : List (StructField α)) (fuel : Nat) (a : α)
    (it : Iterator) : α × Iterator :=
  let field := it.ReadString.1
  let it1 := it.ReadString.2
  let it2 := if it1.nextToken.1 != ':' then it1.nextToken.2.ReportError else it1.nextToken.2
  match fields.find? (fun f => f.name == field) with
  | some f => f.decode fuel a it2
  | none =>
    match fields.find? (fun f => f.name == goLower field) with
    | some f => f.decode fuel a it2
    | none => (a, skip fuel it2)

/-- The loop of `generalStructDecoder`; it returns the byte that ended it. -/
def structGeneralLoop {α : Type} (fields : List (StructField α)) :
    Nat → α → Iterator → α × Char × Iterator
  | 0, a, it => (a, '}', it.starve)
  | fuel + 1, a, it =>
    let r := decodeOneField fields fuel a it
    if r.2.nextToken.1 == ',' then structGeneralLoop fields fuel r.1 r.2.nextToken.2
    else (r.1, r.2.nextToken.1, r.2.nextToken.2)

/-- The decoder that `decoderOfStruct` creates for a struct with the given
fields, as `createStructDecoder` chooses it. -/
def structDecoder {α : Type} (fields : List (StructField α)) : ValDecoder α := fun fuel a it =>
  let entries := fieldEntries fields
  if entries.length = 0 then
    -- skipObjectDecoder
    let c := it.nextToken.1
    let it1 := it.nextToken.2.unreadByte c
    if c == '{' || c == 'n' then (a, skip fuel it1) else (a, it1.ReportError)
  else if !it.readObjectStart.1 then (a, it.readObjectStart.2)
  else if !it.readObjectStart.2.incrementDepth.1 then (a, it.readObjectStart.2.incrementDepth.2)
  else if 10 < entries.length || hashesCollide (entries.map (fun f => calcHash (goLower f.name))) [0]
  then
    let r := structGeneralLoop entries fuel a it.readObjectStart.2.incrementDepth.2
    (r.1, (if r.2.1 != '}' then r.2.2.ReportError else r.2.2).decrementDepth.2)
  else
    let r := structHashLoop entries fuel a it.readObjectStart.2.incrementDepth.2
    (r.1, r.2.decrementDepth.2)

/-- A Go slice: the backing array up to the capacity, and the length. -/
structure GoSlice (α : Type) where
  data : List α
  len : Nat

/-- The nil slice. -/
def GoSlice.nil {α : Type} : GoSlice α := ⟨[], 0⟩

/-- The elements of a slice. -/
def GoSlice.elems {α : Type} (s : GoSlice α) : List α := s.data.take s.len

/-- The doubling of `calcNewCap`. -/
def calcNewCapLoop : Nat → Nat → Nat → Nat
  | 0, cap, _ => cap
  | fuel + 1, cap, expected => if cap < expected then calcNewCapLoop fuel (cap * 2) expected else cap

/-- The function `calcNewCap`. -/
def calcNewCap (cap expected : Nat) : Nat :=
  if cap = 0 then expected else calcNewCapLoop expected cap expected

/-- The method `UnsafeGrow`: within the capacity only the length changes, and
the elements beyond the old length are what the backing array held. -/
def GoSlice.grow {α : Type} (zero : α) (s : GoSlice α) (newLength : Nat) : GoSlice α :=
  if newLength ≤ s.data.length then { s with len := newLength }
  else
    { data := s.data.take s.len ++
        List.replicate (calcNewCap s.data.length newLength - s.len) zero,
      len := newLength }

/-- Decoding into the element at `idx` of a slice. -/
def GoSlice.decodeAt {α : Type} (zero : α) (elem : ValDecoder α) (fuel : Nat) (s : GoSlice α)
    (idx : Nat) (it : Iterator) : GoSlice α × Iterator :=
  let r := elem fuel (s.data.getD idx zero) it
  ({ s with data := s.data.set idx r.1 }, r.2)

/-- The loop of `sliceDecoder` over the elements after the first. -/
def sliceLoop {α : Type} (zero : α) (elem : ValDecoder α) :
    Nat → GoSlice α → Nat → Iterator → GoSlice α × Iterator
  | 0, s, _, it => (s, it.starve)
  | fuel + 1, s, length, it =>
    if it.nextToken.1 == ',' then
      let r := (s.grow zero (length + 1)).decodeAt zero elem fuel length it.nextToken.2
      sliceLoop zero elem fuel r.1 (length + 1) r.2
    else if it.nextToken.1 != ']' then (s, it.nextToken.2.ReportError)
    else (s, it.nextToken.2)

/-- The decoder `sliceDecoder` for a slice of elements with the given zero value
and decoder. -/
def sliceDecoder {α : Type} (zero : α) (elem : ValDecoder α) : ValDecoder (GoSlice α) :=
  fun fuel s it =>
    match fuel with
    | 0 => (s, it.starve)
    | fuel + 1 =>
      let c := it.nextToken.1
      let it1 := it.nextToken.2
      if c == 'n' then (GoSlice.nil, it1.skipThreeBytes 'u' 'l' 'l')
      else if c != '[' then (s, it1.ReportError)
      else if it1.nextToken.1 == ']' then (GoSlice.nil, it1.nextToken.2)
      else
        let r := (s.grow zero 1).decodeAt zero elem fuel 0
          (it1.nextToken.2.unreadByte it1.nextToken.1)
        sliceLoop zero elem fuel r.1 1 r.2

/-- What `jsoniter.Unmarshal(b, &p)` leaves in a pointer `p` to a struct. -/
inductive Unmarshalled (α : Type) where
  | nilPointer : Unmarshalled α
  | value (a : α) : Unmarshalled α
  | outOfFuel : Unmarshalled α

/-- The call `jsoniter.Unmarshal(b, &p)` for a pointer `p` to the struct `a`:
the `OptionalDecoder` of the pointer, then the decoder of the struct. The error
it returns is not part of the result, since every caller drops it. -/
def jsoniter_Unmarshal {α : Type} (decoder : ValDecoder α) (a : α) (b : List Char) :
    Unmarshalled α :=
  let it : Iterator := ⟨b, .nil, 0, false⟩
  if it.ReadNil.1 then .nilPointer
  else
    let r := decoder (2 * b.length + 16) a it.ReadNil.2
    if r.2.starved then .outOfFuel else .value r.1

/-! ### The response structs -/

/-- Modelled from the spec: the type `model.GqlCommonErrors`, which is not in
the embedded sources; an entry of `errors` is `{ message: { message: string } }`
and the code reads `Errors[0].Message.Message`. -/
structure GqlCommonErrors where
  Message : String
deriving DecidableEq

/-- The decoder of a `GqlCommonErrors`: a struct with the field `message`, itself
a struct with the string field `message`. -/
def gqlCommonErrorsDecoder : ValDecoder GqlCommonErrors :=
  structDecoder
    [⟨"message",
      structDecoder
        [⟨"message", fun fuel e it =>
          (⟨(stringCodec fuel e.Message it).1⟩, (stringCodec fuel e.Message it).2)⟩]⟩]

/-- A payload type of a GraphQL operation (`model.CommonMessageAndCode`,
`model.CheckLoginStatusResponse`; their declarations are not in the embedded
sources): its zero value and the decoder `jsoniter` builds for it. -/
structure PayloadCodec (P : Type) where
  zero : P
  decode : ValDecoder P

/-- The anonymous response struct of a GraphQL operation: `Data` holds the one
payload field of the inner struct. -/
structure GqlResponse (P : Type) where
  Data : P
  Errors : GoSlice GqlCommonErrors

/-- The decoder of the response struct of a GraphQL operation whose payload is
tagged `field`. -/
def gqlResponseDecoder {P : Type} (C : PayloadCodec P) (field : String) :
    ValDecoder (GqlResponse P) :=
  structDecoder
    [⟨"data", fun fuel r it =>
        ({ r with Data := (structDecoder [⟨field, C.decode⟩] fuel r.Data it).1 },
          (structDecoder [⟨field, C.decode⟩] fuel r.Data it).2)⟩,
     ⟨"errors", fun fuel r it =>
        ({ r with Errors := (sliceDecoder ⟨""⟩ gqlCommonErrorsDecoder fuel r.Errors it).1 },
          (sliceDecoder ⟨""⟩ gqlCommonErrorsDecoder fuel r.Errors it).2)⟩]

/-- The `response` pointer left by `jsoniter.Unmarshal(b, &response)` for a
GraphQL operation whose payload is tagged `field`, starting from a pointer to
the zero struct. -/
def jiGqlResponse {P : Type} (C : PayloadCodec P) (field : String) (b : Body) :
    Unmarshalled (GqlResponse P) :=
  jsoniter_Unmarshal (gqlResponseDecoder C field) ⟨C.zero, GoSlice.nil⟩ (bodyBytes b)

/-- The `data` struct of the password check. -/
structure PasswordCheck where
  Valid : Bool
  Message : String
deriving DecidableEq

/-- The anonymous response struct of `IsPasswordValid`. -/
structure RestResponse where
  Message : String
  Code : Int
  Data : PasswordCheck
deriving DecidableEq

/-- The decoder of the `data` struct of the password check. -/
def passwordCheckDecoder : ValDecoder PasswordCheck :=
  structDecoder
    [⟨"valid", fun fuel p it =>
        ({ p with Valid := (boolCodec fuel p.Valid it).1 }, (boolCodec fuel p.Valid it).2)⟩,
     ⟨"message", fun fuel p it =>
        ({ p with Message := (stringCodec fuel p.Message it).1 },
          (stringCodec fuel p.Message it).2)⟩]

/-- The decoder of the response struct of `IsPasswordValid`. -/
def restResponseDecoder : ValDecoder RestResponse :=
  structDecoder
    [⟨"message", fun fuel r it =>
        ({ r with Message := (stringCodec fuel r.Message it).1 },
          (stringCodec fuel r.Message it).2)⟩,
     ⟨"code", fun fuel r it =>
        ({ r with Code := (int64Codec fuel r.Code it).1 }, (int64Codec fuel r.Code it).2)⟩,
     ⟨"data", fun fuel r it =>
        ({ r with Data := (passwordCheckDecoder fuel r.Data it).1 },
          (passwordCheckDecoder fuel r.Data it).2)⟩]

/-- The `resp` pointer left by `jsoniter.Unmarshal(b, &resp)` in
`IsPasswordValid`. -/
def jiRestResponse (b : Body) : Unmarshalled RestResponse :=
  jsoniter_Unmarshal restResponseDecoder ⟨"", 0, ⟨false, ""⟩⟩ (bodyBytes b)

/-! ## Typed decoding with `encoding/json`

`QueryAccessToken` decodes with `json.Unmarshal`, which is modelled on the JSON
value: fields are decoded in body order into the current value of the target, a
field name matches a key up to ASCII case, and a value of the wrong JSON type is
skipped. -/

/-- Whether a body key selects the struct field tagged `name`. -/
def fieldMatch (name key : String) : Bool :=
  key.data.map Char.toLower == name.data.map Char.toLower

/-- Modelled from the spec: the type `model.AccessTokenRes`, which is not in the
embedded sources; the exchange response is
`data.accessToken.accessToken : string` and the code dereferences the field, so
it is a `*string` (`none` is the nil pointer). -/
structure AccessTokenRes where
  AccessToken : Option String
deriving DecidableEq

/-- Decoding a `*string` field with `encoding/json`: `null` sets the nil
pointer; any other value allocates the pointer when it is nil, and only a string
is stored in it. -/
def stdStringPtr (cur : Option String) : JVal → Option String
  | .null => none
  | .str s => some s
  | _ => match cur with
    | some s => some s
    | none => some ""

/-- Decoding a struct with `encoding/json`: a value that is not an object is
skipped. -/
def stdStruct {α : Type} (step : α → String → JVal → α) (cur : α) : JVal → α
  | .obj kvs => kvs.foldl (fun a kv => step a kv.1 kv.2) cur
  | _ => cur

/-- The `AccessTokenRes` left by `json.Unmarshal(b, &r)` in `QueryAccessToken`
at `r.Data.AccessToken`, starting from the zero `Result`. -/
def stdAccessTokenResult : Body → AccessTokenRes
  | .notJson _ => ⟨none⟩
  | .json v =>
    stdStruct (fun (r : AccessTokenRes) k v1 =>
        if fieldMatch "data" k then
          stdStruct (fun (d : AccessTokenRes) k2 v2 =>
              if fieldMatch "accessToken" k2 then
                stdStruct (fun (t : AccessTokenRes) k3 v3 =>
                    if fieldMatch "accessToken" k3 then ⟨stdStringPtr t.AccessToken v3⟩ else t)
                  d v2
              else d)
            r v1
        else r)
      ⟨none⟩ v

/-! ## Transport -/

/-- The three identification headers and the application id header that every
transport function adds. -/
def addIdHeaders (E : Env) (c : Client) (r : Request) : Request :=
  (((r.addHeader "x-authing-userpool-id" c.userPoolId).addHeader
        "x-authing-request-from" E.K.SdkType).addHeader
      "x-authing-sdk-version" E.K.SdkVersion).addHeader
    "x-authing-app-id" E.K.AppId

/-- The first part of `SendHttpRequest`: building the request. `ok none` is the
nil request left by the ignored error of `http.NewRequest` in the GET branch. -/
def buildRequest (E : Env) (url method query : String) (vars : Vars) : Res (Option Request) :=
  if method = E.K.HttpMethodGet then
    match E.newRequestErr http_MethodGet url with
    | some _ => if vars.len > 0 then .panic else .ok none
    | none =>
      .ok (some
        { method := http_MethodGet, url := url,
          rawQuery := match vars with
            | some (kv :: kvs) => some (E.encodeQuery url (kv :: kvs))
            | _ => none,
          body := .empty, headers := [] })
  else
    match E.newRequestErr method url with
    | some err => .err err
    | none =>
      .ok (some
        { method := method, url := url, rawQuery := none,
          body := if query = E.K.StringEmpty then .bare vars else .graphql query vars,
          headers := [("Content-Type", "application/json")] })

/-- The last part of `SendHttpRequest`: the identification headers,
`HttpClient.Do` and reading the body. -/
def doSend (E : Env) (c : Client) (req : Option Request) (w : World) : Res Body × World :=
  match req with
  | none => (.panic, w)
  | some r =>
    match E.httpDo w.sent (addIdHeaders E c r) with
    | .doErr err => (.err err, { w with sent := w.sent ++ [addIdHeaders E c r] })
    | .response _ (some err) => (.err err, { w with sent := w.sent ++ [addIdHeaders E c r] })
    | .response body none => (.ok body, { w with sent := w.sent ++ [addIdHeaders E c r] })

/-- The body of `SendHttpRequest`, over the credential provider it calls. -/
def SendHttpRequestWith (E : Env) (c : Client) (getToken : World → Res String × World)
    (url method query : String) (vars : Vars) (w : World) : Res Body × World :=
  match buildRequest E url method query vars with
  | .err err => (.err err, w)
  | .panic => (.panic, w)
  | .outOfFuel => (.outOfFuel, w)
  | .ok req =>
    if !strings_HasPrefix query "query accessToken" then
      match getToken w with
      | (.err err, w1) => (.err err, w1)
      | (.panic, w1) => (.panic, w1)
      | (.outOfFuel, w1) => (.outOfFuel, w1)
      | (.ok token, w1) =>
        match req with
        | none => (.panic, w1)
        | some r => doSend E c (some (r.addHeader "Authorization" ("Bearer " ++ token))) w1
    else doSend E c req w

/-- The body of `QueryAccessToken`, over the transport function it calls. -/
def QueryAccessTokenWith (E : Env) (client : Client)
    (send : String → String → String → Vars → World → Res Body × World) (w : World) :
    Res AccessTokenRes × World :=
  match send (client.Host ++ E.K.CoreAuthingGraphqlPath) E.K.HttpMethodPost
      E.K.AccessTokenDocument
      (some [("userPoolId", client.userPoolId), ("secret", client.secret)]) w with
  | (.err err, w1) => (.err err, w1)
  | (.panic, w1) => (.panic, w1)
  | (.outOfFuel, w1) => (.outOfFuel, w1)
  | (.ok b, w1) =>
    match checkError b with
    | some err => (.err err, w1)
    | none => (.ok (stdAccessTokenResult b), w1)

/-- The credential provider `GetAccessToken`. It calls `QueryAccessToken`, which
calls `SendHttpRequest`, which calls `GetAccessToken` again unless the query
begins with `query accessToken`; the first argument bounds the depth of that
recursion. -/
def GetAccessToken (E : Env) (client : Client) : Nat → World → Res String × World
  | 0, w => (.outOfFuel, w)
  | fuel + 1, w =>
    match GetCache w (TokenCacheKeyPrefix ++ client.userPoolId) with
    | (.str cacheToken, true) => (.ok cacheToken, w)
    | (.other, true) => (.panic, w)
    | _ =>
      match QueryAccessTokenWith E client
          (SendHttpRequestWith E client (GetAccessToken E client fuel)) w with
      | (.err err, w1) => (.err err, w1)
      | (.panic, w1) => (.panic, w1)
      | (.outOfFuel, w1) => (.outOfFuel, w1)
      | (.ok token, w1) =>
        match token.AccessToken with
        | none => (.panic, w1)
        | some t =>
          (.ok t, SetCache w1 (TokenCacheKeyPrefix ++ client.userPoolId) (.str t) (24 * time_Hour))

/-- The transport function `SendHttpRequest`. -/
def SendHttpRequest (E : Env) (c : Client) (fuel : Nat) (url method query : String)
    (vars : Vars) (w : World) : Res Body × World :=
  SendHttpRequestWith E c (GetAccessToken E c fuel) url method query vars w

/-- The credential exchange `QueryAccessToken`. -/
def QueryAccessToken (E : Env) (client : Client) (fuel : Nat) (w : World) :
    Res AccessTokenRes × World :=
  QueryAccessTokenWith E client (SendHttpRequest E client fuel) w

/-- The first part of `SendHttpRestRequest`: building the request; the errors of
`http.NewRequest` are not looked at, and a nil request panics where it is first
used. -/
def buildRestRequest (E : Env) (url method : String) (vars : Vars) : Res (Option Request) :=
  if method = E.K.HttpMethodGet then
    match E.newRequestErr http_MethodGet url with
    | some _ => if vars.len > 0 then .panic else .ok none
    | none =>
      .ok (some
        { method := http_MethodGet, url := url,
          rawQuery := match vars with
            | some (kv :: kvs) => some (E.encodeQuery url (kv :: kvs))
            | _ => none,
          body := .empty, headers := [] })
  else
    match E.newRequestErr method url with
    | some _ => .panic
    | none =>
      .ok (some
        { method := method, url := url, rawQuery := none,
          body := match vars with
            | some kvs => .bare (some kvs)
            | none => .empty,
          headers := [("Content-Type", "application/json")] })

/-- The transport function `SendHttpRestRequest`. -/
def SendHttpRestRequest (E : Env) (c : Client) (fuel : Nat) (url method : String)
    (vars : Vars) (w : World) : Res Body × World :=
  match buildRestRequest E url method vars with
  | .err err => (.err err, w)
  | .panic => (.panic, w)
  | .outOfFuel => (.outOfFuel, w)
  | .ok req =>
    match GetAccessToken E c fuel w with
    | (.panic, w1) => (.panic, w1)
    | (.outOfFuel, w1) => (.outOfFuel, w1)
    | (tokenRes, w1) =>
      match req with
      | none => (.panic, w1)
      | some r =>
        match E.httpDo w1.sent
            (addIdHeaders E c (r.addHeader "Authorization"
              ("Bearer " ++ match tokenRes with
                | .ok token => token
                | _ => ""))) with
        | .doErr err =>
          (.err err, { w1 with sent := w1.sent ++ [addIdHeaders E c (r.addHeader "Authorization"
              ("Bearer " ++ match tokenRes with
                | .ok token => token
                | _ => ""))] })
        | .response body _ =>
          (.ok body, { w1 with sent := w1.sent ++ [addIdHeaders E c (r.addHeader "Authorization"
              ("Bearer " ++ match tokenRes with
                | .ok token => token
                | _ => ""))] })

/-! ## Operation methods -/

/-- The unwrap tail shared by the GraphQL operation methods: the first decoded
error if there is one, else the payload. -/
def gqlResult {P : Type} (response : GqlResponse P) : Res P :=
  match response.Errors.elems with
  | e :: _ => .err e.Message
  | [] => .ok response.Data

/-- The operation method `SendEmail`. -/
def SendEmail {P : Type} (C : PayloadCodec P) (E : Env) (c : Client) (fuel : Nat)
    (email scene : String) (w : World) : Res P × World :=
  match SendHttpRequest E c fuel (c.Host ++ E.K.CoreAuthingGraphqlPath) http_MethodPost
      E.K.SendMailDocument (some [("email", email), ("scene", scene)]) w with
  | (.err err, w1) => (.err err, w1)
  | (.panic, w1) => (.panic, w1)
  | (.outOfFuel, w1) => (.outOfFuel, w1)
  | (.ok b, w1) =>
    match jiGqlResponse C "sendEmail" b with
    | .nilPointer => (.panic, w1)
    | .outOfFuel => (.outOfFuel, w1)
    | .value response => (gqlResult response, w1)

/-- The operation method `CheckLoginStatusByToken`. -/
def CheckLoginStatusByToken {P : Type} (C : PayloadCodec P) (E : Env) (c : Client) (fuel : Nat)
    (token : String) (w : World) : Res P × World :=
  match SendHttpRequest E c fuel (c.Host ++ E.K.CoreAuthingGraphqlPath) http_MethodPost
      E.K.CheckLoginStatusDocument (some [("token", token)]) w with
  | (.err err, w1) => (.err err, w1)
  | (.panic, w1) => (.panic, w1)
  | (.outOfFuel, w1) => (.outOfFuel, w1)
  | (.ok b, w1) =>
    match jiGqlResponse C "checkLoginStatus" b with
    | .nilPointer => (.panic, w1)
    | .outOfFuel => (.outOfFuel, w1)
    | .value response => (gqlResult response, w1)

/-- The operation method `IsPasswordValid`. -/
def IsPasswordValid (E : Env) (c : Client) (fuel : Nat) (password : String) (w : World) :
    Res PasswordCheck × World :=
  match SendHttpRestRequest E c fuel (c.Host ++ "/api/v2/password/check") http_MethodPost
      (some [("password", password)]) w with
  | (.err err, w1) => (.err err, w1)
  | (.panic, w1) => (.panic, w1)
  | (.outOfFuel, w1) => (.outOfFuel, w1)
  | (.ok b, w1) =>
    match jiRestResponse b with
    | .nilPointer => (.panic, w1)
    | .outOfFuel => (.outOfFuel, w1)
    | .value resp => if resp.Code ≠ 200 then (.err resp.Message, w1) else (.ok resp.Data, w1)

/-- The variables of a request body. -/
def ReqBody.vars : ReqBody → Vars
  | .empty => none
  | .graphql _ vs => vs
  | .bare vs => vs

/-- The request that `QueryAccessToken` hands to the HTTP client: what
`SendHttpRequest` builds for the exchange document, with no bearer header. -/
def exchangeRequest (E : Env) (c : Client) : Request :=
  addIdHeaders E c
    { method := E.K.HttpMethodPost, url := c.Host ++ E.K.CoreAuthingGraphqlPath, rawQuery := none,
      body := if E.K.AccessTokenDocument = E.K.StringEmpty then
          .bare (some [("userPoolId", c.userPoolId), ("secret", c.secret)])
        else .graphql E.K.AccessTokenDocument
          (some [("userPoolId", c.userPoolId), ("secret", c.secret)]),
      headers := [("Content-Type", "application/json")] }

/-! ## A concrete environment for evaluating the code -/

/-- Sample values of the constants. -/
def sampleK : Constants :=
  { CoreAuthingGraphqlPath := "/graphql/v2", HttpMethodGet := "GET", HttpMethodPost := "POST",
    StringEmpty := "", SdkType := "SDK", SdkVersion := "go:2.0.0", AppId := "",
    AccessTokenDocument := "query accessToken($userPoolId: String!, $secret: String!)",
    SendMailDocument := "mutation sendEmail($email: String!, $scene: EmailScene!)",
    CheckLoginStatusDocument := "query checkLoginStatus($token: String)" }

/-- A remote service that answers the credential exchange with `exchange` and
every other request with `other`. -/
def sampleEnv (exchange other : HttpResult) : Env :=
  { K := sampleK, newRequestErr := fun _ _ => none, encodeQuery := fun _ _ => "",
    httpDo := fun _ r =>
      match r.body with
      | .graphql q _ => if strings_HasPrefix q "query accessToken" then exchange else other
      | _ => other }

/-- A sample client. -/
def sampleClient : Client := ⟨"pool", "secret", "https://core.authing.cn"⟩

/-- The state of a fresh process: empty cache, nothing sent. -/
def freshWorld : World := ⟨[], 0, []⟩

/-- A state whose cache holds the credential `tok-abc` for the sample client,
valid until time 100. -/
def warmWorld : World := ⟨[("token:pool", ⟨.str "tok-abc", 100⟩)], 50, []⟩

/-- An entry of `errors` carrying the nested message `m`. -/
def errorEntry (m : String) : JVal := .obj [("message", .obj [("message", .str m)])]

/-- The exchange response `{"data":{"accessToken":{"accessToken":"tok-abc"}}}`. -/
def tokenBody : Body :=
  .json (.obj [("data", .obj [("accessToken", .obj [("accessToken", .str "tok-abc")])])])

/-- A payload struct with a message and a code, standing for the payload types
of the GraphQL operations. -/
structure MessageAndCode where
  Message : String
  Code : Int
deriving DecidableEq

/-- The decoder `jsoniter` builds for a `MessageAndCode` with the tags `message`
and `code`. -/
def messageAndCodeCodec : PayloadCodec MessageAndCode :=
  { zero := ⟨"", 0⟩,
    decode := structDecoder
      [⟨"message", fun fuel p it =>
          ({ p with Message := (stringCodec fuel p.Message it).1 },
            (stringCodec fuel p.Message it).2)⟩,
       ⟨"code", fun fuel p it =>
          ({ p with Code := (int64Codec fuel p.Code it).1 }, (int64Codec fuel p.Code it).2)⟩] }

/-- The body `{"data":"x","errors":[{"message":{"message":"boom"}}]}`: a
non-empty `errors` array behind a `data` that is a string. -/
def illShapedDataBody : Body :=
  .json (.obj [("data", .str "x"), ("errors", .arr [errorEntry "boom"])])

/-! ## The response unwrapper -/

/-- When the top-level `errors` is a non-empty array whose first entry carries
the nested string `m`, `checkError` fails with the text `m`, whatever else the
body holds. -/
theorem checkError_first_message (v e0 : JVal) (rest : List JVal) (m : String)
    (herr : Json_CheckGet v "errors" = some (.arr (e0 :: rest)))
    (hmsg : Json_Get (Json_Get e0 "message") "message" = .str m) :
    checkError (.json v) = some m := by
  simp [checkError, simplejson_NewJson, herr, Json_Array, Json_Get, Json_GetIndex]
  simp [Json_Get] at hmsg
  rw [hmsg]
  simp [Json_String]

/-- Claim C2, counterexample: on the body `{"data":{},"errors":null}`, which parses
as JSON and carries no `errors` array, `checkError` does not return nil: it
returns the type-assertion error of `Array`. -/
theorem checkError_errors_null :
    checkError (.json (.obj [("data", .obj []), ("errors", .null)])) = some errNotArray ∧
      checkError (.json (.obj [("data", .obj []), ("errors", .null)])) ≠ none := by
  constructor
  · rfl
  · intro h
    cases h

/-- Claim C2, amended: for a body that parses as JSON, `checkError` returns nil
exactly when the top-level `errors` key is absent or holds an empty array; when
`errors` is present and is not an array it returns the type-assertion error. -/
theorem checkError_nil_iff (v : JVal) :
    (checkError (.json v) = none ↔
        (Json_CheckGet v "errors" = none ∨ Json_CheckGet v "errors" = some (.arr []))) ∧
      (∀ e, Json_CheckGet v "errors" = some e → (∀ xs, e ≠ .arr xs) →
        checkError (.json v) = some errNotArray) := by
  constructor
  · cases h : Json_CheckGet v "errors" with
    | none => simp [checkError, simplejson_NewJson, h]
    | some e =>
      cases e with
      | arr xs =>
        cases xs with
        | nil => simp [checkError, simplejson_NewJson, h, Json_Array]
        | cons x xs =>
          simp only [checkError, simplejson_NewJson, h, Json_Array]
          simp
          split <;> simp
      | _ => simp [checkError, simplejson_NewJson, h, Json_Array]
  · intro e h hne
    cases e with
    | arr xs => exact absurd rfl (hne xs)
    | _ => simp [checkError, simplejson_NewJson, h, Json_Array]

/-- On the body `{"errors":[{"message":{"message":"boom"}}],"data":null}` both
`checkError` and the GraphQL operation methods fail with `boom`. -/
theorem gql_operations_surface_error :
    checkError (.json (.obj [("errors", .arr [errorEntry "boom"]), ("data", .null)]))
        = some "boom" ∧
      (SendEmail messageAndCodeCodec
          (sampleEnv (.response tokenBody none)
            (.response (.json (.obj [("errors", .arr [errorEntry "boom"]), ("data", .null)])) none))
          sampleClient 2 "a@b.c" "RESET_PASSWORD" freshWorld).1 = .err "boom" ∧
      (CheckLoginStatusByToken messageAndCodeCodec
          (sampleEnv (.response tokenBody none)
            (.response (.json (.obj [("data", .obj [("checkLoginStatus",
              .obj [("message", .str "m"), ("code", .num 1)])]),
              ("errors", .arr [errorEntry "boom"])])) none))
          sampleClient 2 "tok" freshWorld).1 = .err "boom" ∧
      (SendEmail messageAndCodeCodec
          (sampleEnv (.response tokenBody none)
            (.response (.json (.obj [("data", .obj [("sendEmail",
              .obj [("message", .str "sent"), ("code", .num 200)])])])) none))
          sampleClient 2 "a@b.c" "RESET_PASSWORD" freshWorld).1 = .ok ⟨"sent", 200⟩ :=
  ⟨rfl, rfl, rfl, rfl⟩

/-! ## Evaluations of the operation methods at bodies that do not decode -/

/-- Claim C1, at the body `{"data":"x","errors":[{"message":{"message":"boom"}}]}`:
`checkError` fails with `boom`, while `SendEmail` and `CheckLoginStatusByToken`
return a zero payload with a nil error, because decoding stops at `data` and the
decode error is dropped. -/
theorem gql_operations_lose_error_behind_ill_shaped_data :
    checkError illShapedDataBody = some "boom" ∧
      (SendEmail messageAndCodeCodec
          (sampleEnv (.response tokenBody none) (.response illShapedDataBody none))
          sampleClient 2 "a@b.c" "RESET_PASSWORD" freshWorld).1 = .ok ⟨"", 0⟩ ∧
      (CheckLoginStatusByToken messageAndCodeCodec
          (sampleEnv (.response tokenBody none) (.response illShapedDataBody none))
          sampleClient 2 "tok" freshWorld).1 = .ok ⟨"", 0⟩ :=
  ⟨rfl, rfl, rfl⟩

/-- Claim C9, at a body that is not JSON: `SendEmail` and
`CheckLoginStatusByToken` return a zero payload with a nil error;
`IsPasswordValid` fails, with an empty message. -/
theorem operations_on_undecodable_body :
    (SendEmail messageAndCodeCodec
          (sampleEnv (.response tokenBody none) (.response (.notJson "<html>502</html>") none))
          sampleClient 2 "a@b.c" "RESET_PASSWORD" freshWorld).1 = .ok ⟨"", 0⟩ ∧
      (CheckLoginStatusByToken messageAndCodeCodec
          (sampleEnv (.response tokenBody none) (.response (.notJson "<html>502</html>") none))
          sampleClient 2 "tok" freshWorld).1 = .ok ⟨"", 0⟩ ∧
      (IsPasswordValid
          (sampleEnv (.response tokenBody none) (.response (.notJson "<html>502</html>") none))
          sampleClient 2 "p4ssw0rd" freshWorld).1 = .err "" :=
  ⟨rfl, rfl, rfl⟩

/-- Claim C10, at the exchange bodies `{}` and `{"data":null}`: both pass
`checkError`, `QueryAccessToken` returns a result whose token pointer is nil, and
`GetAccessToken` panics on dereferencing it; nothing is stored. -/
theorem GetAccessToken_panics_on_missing_token :
    checkError (.json (.obj [])) = none ∧
      (QueryAccessToken (sampleEnv (.response (.json (.obj [])) none) (.doErr "unused"))
          sampleClient 0 freshWorld).1 = .ok ⟨none⟩ ∧
      (GetAccessToken (sampleEnv (.response (.json (.obj [])) none) (.doErr "unused"))
          sampleClient 1 freshWorld).1 = .panic ∧
      (GetAccessToken (sampleEnv (.response (.json (.obj [("data", .null)])) none) (.doErr "unused"))
          sampleClient 1 freshWorld).1 = .panic ∧
      (GetAccessToken (sampleEnv (.response (.json (.obj [])) none) (.doErr "unused"))
          sampleClient 1 freshWorld).2.cache = [] :=
  ⟨rfl, rfl, rfl, rfl, rfl⟩

/-- Claim C8, with a failing credential exchange and an empty cache:
`GetAccessToken` fails and `SendHttpRequest` returns that failure after the one
exchange request, but `SendHttpRestRequest` and `IsPasswordValid` go on to send
a second request, whose header is `Authorization: Bearer ` with an empty token,
and `SendHttpRestRequest` returns the body of its response. -/
theorem SendHttpRestRequest_sends_with_empty_bearer :
    (GetAccessToken (sampleEnv (.doErr "dial tcp: connection refused")
          (.response (.notJson "401") none)) sampleClient 2 freshWorld).1
        = .err "dial tcp: connection refused" ∧
      ((SendHttpRequest (sampleEnv (.doErr "dial tcp: connection refused")
          (.response (.notJson "401") none)) sampleClient 2 "https://core.authing.cn/graphql/v2"
          "POST" "query users" none freshWorld).2.sent.map
        (fun r => r.headers.lookup "Authorization")) = [none] ∧
      ((SendHttpRestRequest (sampleEnv (.doErr "dial tcp: connection refused")
          (.response (.notJson "401") none)) sampleClient 2
          "https://core.authing.cn/api/v2/password/check" "POST" (some [("password", "p")])
          freshWorld).2.sent.map
        (fun r => r.headers.lookup "Authorization")) = [none, some "Bearer "] ∧
      ((IsPasswordValid (sampleEnv (.doErr "dial tcp: connection refused")
          (.response (.notJson "401") none)) sampleClient 2 "p" freshWorld).2.sent.map
        (fun r => r.headers.lookup "Authorization")) = [none, some "Bearer "] ∧
      (∃ w1, SendHttpRestRequest (sampleEnv (.doErr "dial tcp: connection refused")
          (.response (.notJson "401") none)) sampleClient 2
          "https://core.authing.cn/api/v2/password/check" "POST" (some [("password", "p")])
          freshWorld = (.ok (.notJson "401"), w1)) :=
  ⟨rfl, rfl, rfl, rfl, ⟨_, rfl⟩⟩

/-! ## The credential provider -/

/-- Storing under a key makes that key hold the stored value with expiry
`now + ttl`. -/
theorem cacheEntry_SetCache_same (w : World) (key : String) (v : CacheValue) (ttl : Nat) :
    cacheEntry key (SetCache w key v ttl).cache = some ⟨v, w.now + ttl⟩ := by
  simp [SetCache, cacheEntry]

/-- Filtering a key out of the cache leaves the entries of the other keys. -/
theorem cacheEntry_filter_ne (key k : String) (hk : k ≠ key) (l : List (String × CacheItem)) :
    cacheEntry k (l.filter (fun e => decide (e.1 ≠ key))) = cacheEntry k l := by
  induction l with
  | nil => rfl
  | cons e l ih =>
    obtain ⟨a, it⟩ := e
    by_cases he : a = key
    · have hne : ¬ a = k := fun h => hk (h ▸ he)
      rw [List.filter_cons_of_neg (by simpa using he)]
      simp only [cacheEntry, hne, if_false]
      exact ih
    · rw [List.filter_cons_of_pos (by simpa using he)]
      by_cases hek : a = k
      · simp only [cacheEntry, hek, if_true]
      · simp only [cacheEntry, hek, if_false]
        exact ih

/-- Storing under a key leaves the entries of the other keys. -/
theorem cacheEntry_SetCache_other (w : World) (key k : String) (hk : k ≠ key) (v : CacheValue)
    (ttl : Nat) : cacheEntry k (SetCache w key v ttl).cache = cacheEntry k w.cache := by
  have hne : ¬ key = k := fun h => hk h.symm
  simp only [SetCache, cacheEntry, hne, if_false]
  exact cacheEntry_filter_ne key k hk w.cache

/-- What `doSend` does to the state: the cache and the clock stay, and at most
one request is appended to the log. -/
theorem doSend_world (E : Env) (c : Client) (req : Option Request) (w : World) :
    (doSend E c req w).2.cache = w.cache ∧ (doSend E c req w).2.now = w.now ∧
      ((doSend E c req w).2.sent = w.sent ∨
        ∃ r, req = some r ∧ (doSend E c req w).2.sent = w.sent ++ [addIdHeaders E c r]) := by
  cases req with
  | none => simp [doSend]
  | some r =>
    simp only [doSend]
    cases h : E.httpDo w.sent (addIdHeaders E c r) with
    | doErr e => simp
    | response b re => cases re <;> simp

/-- For a query that begins with `query accessToken`, `SendHttpRequest` does not
consult the credential provider. -/
theorem SendHttpRequestWith_exchange_query (E : Env) (c : Client) (g : World → Res String × World)
    (url method query : String) (vars : Vars) (w : World)
    (hpre : strings_HasPrefix query "query accessToken" = true) :
    SendHttpRequestWith E c g url method query vars w =
      match buildRequest E url method query vars with
      | .err err => (.err err, w)
      | .panic => (.panic, w)
      | .outOfFuel => (.outOfFuel, w)
      | .ok req => doSend E c req w := by
  simp only [SendHttpRequestWith, hpre]
  cases buildRequest E url method query vars <;> simp

/-- What the exchange call does to the state when the exchange document begins
with `query accessToken`: the cache and the clock stay, and at most one request
is appended to the log. -/
theorem QueryAccessToken_world (E : Env) (c : Client) (fuel : Nat) (w : World)
    (hdoc : strings_HasPrefix E.K.AccessTokenDocument "query accessToken" = true) :
    (QueryAccessToken E c fuel w).2.cache = w.cache ∧ (QueryAccessToken E c fuel w).2.now = w.now ∧
      ((QueryAccessToken E c fuel w).2.sent = w.sent ∨
        ∃ r, (QueryAccessToken E c fuel w).2.sent = w.sent ++ [r]) := by
  simp only [QueryAccessToken, QueryAccessTokenWith, SendHttpRequest]
  rw [SendHttpRequestWith_exchange_query _ _ _ _ _ _ _ _ hdoc]
  cases hb : buildRequest E (c.Host ++ E.K.CoreAuthingGraphqlPath) E.K.HttpMethodPost
      E.K.AccessTokenDocument (some [("userPoolId", c.userPoolId), ("secret", c.secret)]) with
  | err e => simp
  | panic => simp
  | outOfFuel => simp
  | ok req =>
    simp only
    have hw := doSend_world E c req w
    rcases hd : doSend E c req w with ⟨res, w1⟩
    rw [hd] at hw
    simp only at hw
    obtain ⟨h1, h2, h3⟩ := hw
    have h3' : w1.sent = w.sent ∨ ∃ r, w1.sent = w.sent ++ [r] := by
      rcases h3 with h | ⟨r, _, h⟩
      · exact Or.inl h
      · exact Or.inr ⟨_, h⟩
    cases res with
    | err e => exact ⟨h1, h2, h3'⟩
    | panic => exact ⟨h1, h2, h3'⟩
    | outOfFuel => exact ⟨h1, h2, h3'⟩
    | ok b =>
      simp only
      cases checkError b <;> exact ⟨h1, h2, h3'⟩

/-- The exchange call when the request can be built: one request, the exchange
request, is handed to the HTTP client, and the result follows its response. -/
theorem QueryAccessToken_eq (E : Env) (c : Client) (fuel : Nat) (w : World)
    (hdoc : strings_HasPrefix E.K.AccessTokenDocument "query accessToken" = true)
    (hpost : E.K.HttpMethodPost ≠ E.K.HttpMethodGet)
    (hnew : E.newRequestErr E.K.HttpMethodPost (c.Host ++ E.K.CoreAuthingGraphqlPath) = none) :
    QueryAccessToken E c fuel w =
      match E.httpDo w.sent (exchangeRequest E c) with
      | .doErr err => (.err err, { w with sent := w.sent ++ [exchangeRequest E c] })
      | .response _ (some err) => (.err err, { w with sent := w.sent ++ [exchangeRequest E c] })
      | .response b none =>
        match checkError b with
        | some err => (.err err, { w with sent := w.sent ++ [exchangeRequest E c] })
        | none => (.ok (stdAccessTokenResult b), { w with sent := w.sent ++ [exchangeRequest E c] }) := by
  simp only [QueryAccessToken, QueryAccessTokenWith, SendHttpRequest]
  rw [SendHttpRequestWith_exchange_query _ _ _ _ _ _ _ _ hdoc]
  simp only [buildRequest, hpost, if_false, hnew, doSend]
  change (match (match E.httpDo w.sent (exchangeRequest E c) with
      | .doErr err => (Res.err err, { w with sent := w.sent ++ [exchangeRequest E c] })
      | .response _ (some err) => (Res.err err, { w with sent := w.sent ++ [exchangeRequest E c] })
      | .response body none => (Res.ok body, { w with sent := w.sent ++ [exchangeRequest E c] })) with
    | (.err err, w1) => (Res.err err, w1)
    | (.panic, w1) => (.panic, w1)
    | (.outOfFuel, w1) => (.outOfFuel, w1)
    | (.ok b, w1) =>
      match checkError b with
      | some err => (.err err, w1)
      | none => (.ok (stdAccessTokenResult b), w1)) = _
  cases E.httpDo w.sent (exchangeRequest E c) with
  | doErr e => rfl
  | response b re => cases re <;> rfl

/-- Claim C3: when the cache holds a non-expired credential `t` under the key
`token:<userPoolId>`, `GetAccessToken` returns `(t, nil)` and leaves the whole
state as it was: no request is sent and the cache is unchanged. -/
theorem GetAccessToken_cache_hit (E : Env) (c : Client) (w : World) (t : String) (exp fuel : Nat)
    (hentry : cacheEntry (TokenCacheKeyPrefix ++ c.userPoolId) w.cache = some ⟨.str t, exp⟩)
    (hfresh : w.now ≤ exp) :
    GetAccessToken E c (fuel + 1) w = (.ok t, w) := by
  simp [GetAccessToken, GetCache, hentry, Nat.not_lt.mpr hfresh]

/-- Claim C3 at the warm sample state, against a remote service that is down. -/
theorem GetAccessToken_cache_hit_witness :
    GetAccessToken (sampleEnv (.doErr "down") (.doErr "down")) sampleClient 1 warmWorld
      = (.ok "tok-abc", warmWorld) :=
  GetAccessToken_cache_hit (sampleEnv (.doErr "down") (.doErr "down")) sampleClient warmWorld
    "tok-abc" 100 0 rfl (by decide)

/-- Claim C4: on a cache miss and a successful exchange response carrying the
token `t`, `GetAccessToken` hands exactly one request to the HTTP client, the
exchange request with the variables `userPoolId` and `secret`, stores `t` under
`token:<userPoolId>` with expiry 24 hours from now, leaves every other key and
the clock as they were, and returns `(t, nil)`. -/
theorem GetAccessToken_cache_miss (E : Env) (c : Client) (w : World) (b : Body) (t : String)
    (fuel : Nat)
    (hmiss : (GetCache w (TokenCacheKeyPrefix ++ c.userPoolId)).2 = false)
    (hdoc : strings_HasPrefix E.K.AccessTokenDocument "query accessToken" = true)
    (hpost : E.K.HttpMethodPost ≠ E.K.HttpMethodGet)
    (hnew : E.newRequestErr E.K.HttpMethodPost (c.Host ++ E.K.CoreAuthingGraphqlPath) = none)
    (hdo : E.httpDo w.sent (exchangeRequest E c) = .response b none)
    (hchk : checkError b = none)
    (htok : stdAccessTokenResult b = ⟨some t⟩) :
    ∃ w1, GetAccessToken E c (fuel + 1) w = (.ok t, w1) ∧
      w1.sent = w.sent ++ [exchangeRequest E c] ∧
      (exchangeRequest E c).body.vars = some [("userPoolId", c.userPoolId), ("secret", c.secret)] ∧
      cacheEntry (TokenCacheKeyPrefix ++ c.userPoolId) w1.cache
        = some ⟨.str t, w.now + 86400000000000⟩ ∧
      (∀ k, k ≠ TokenCacheKeyPrefix ++ c.userPoolId → cacheEntry k w1.cache = cacheEntry k w.cache) ∧
      w1.now = w.now := by
  have hq := QueryAccessToken_eq E c fuel w hdoc hpost hnew
  rw [hdo] at hq
  simp only [hchk, htok] at hq
  have hg : GetAccessToken E c (fuel + 1) w =
      (.ok t, SetCache { w with sent := w.sent ++ [exchangeRequest E c] }
        (TokenCacheKeyPrefix ++ c.userPoolId) (.str t) (24 * time_Hour)) := by
    rcases hc : GetCache w (TokenCacheKeyPrefix ++ c.userPoolId) with ⟨v, found⟩
    rw [hc] at hmiss
    simp only at hmiss
    subst hmiss
    have hq' : QueryAccessTokenWith E c (SendHttpRequestWith E c (GetAccessToken E c fuel)) w =
        (.ok ⟨some t⟩, { w with sent := w.sent ++ [exchangeRequest E c] }) := hq
    simp only [GetAccessToken, hc, hq']
  refine ⟨_, hg, rfl, ?_, ?_, ?_, rfl⟩
  · simp only [exchangeRequest, addIdHeaders, Request.addHeader]
    split <;> rfl
  · rw [cacheEntry_SetCache_same]
    rfl
  · intro k hk
    rw [cacheEntry_SetCache_other _ _ _ hk]

/-- Claim C4 at the fresh sample state, with the exchange response
`{"data":{"accessToken":{"accessToken":"tok-abc"}}}`. -/
theorem GetAccessToken_cache_miss_witness :
    ∃ w1, GetAccessToken (sampleEnv (.response tokenBody none) (.doErr "down")) sampleClient 1
        freshWorld = (.ok "tok-abc", w1) ∧
      w1.sent = freshWorld.sent ++
        [exchangeRequest (sampleEnv (.response tokenBody none) (.doErr "down")) sampleClient] ∧
      (exchangeRequest (sampleEnv (.response tokenBody none) (.doErr "down")) sampleClient).body.vars
        = some [("userPoolId", sampleClient.userPoolId), ("secret", sampleClient.secret)] ∧
      cacheEntry (TokenCacheKeyPrefix ++ sampleClient.userPoolId) w1.cache
        = some ⟨.str "tok-abc", freshWorld.now + 86400000000000⟩ ∧
      (∀ k, k ≠ TokenCacheKeyPrefix ++ sampleClient.userPoolId →
        cacheEntry k w1.cache = cacheEntry k freshWorld.cache) ∧
      w1.now = freshWorld.now :=
  GetAccessToken_cache_miss (sampleEnv (.response tokenBody none) (.doErr "down")) sampleClient
    freshWorld tokenBody "tok-abc" 0 rfl rfl (by decide) rfl rfl rfl rfl

/-- Claim C5: on a cache miss, when the exchange call `QueryAccessToken` fails
with the error `e`, `GetAccessToken` returns `("", e)` with the same `e`, the
cache and the clock are exactly as before, and at most one request was handed
to the HTTP client (no retry). -/
theorem GetAccessToken_exchange_failure (E : Env) (c : Client) (w w1 : World) (e : GoError)
    (fuel : Nat)
    (hmiss : (GetCache w (TokenCacheKeyPrefix ++ c.userPoolId)).2 = false)
    (hdoc : strings_HasPrefix E.K.AccessTokenDocument "query accessToken" = true)
    (hfail : QueryAccessToken E c fuel w = (.err e, w1)) :
    GetAccessToken E c (fuel + 1) w = (.err e, w1) ∧ w1.cache = w.cache ∧ w1.now = w.now ∧
      (w1.sent = w.sent ∨ ∃ r, w1.sent = w.sent ++ [r]) := by
  have hw := QueryAccessToken_world E c fuel w hdoc
  rw [hfail] at hw
  refine ⟨?_, hw.1, hw.2.1, hw.2.2⟩
  rcases hc : GetCache w (TokenCacheKeyPrefix ++ c.userPoolId) with ⟨v, found⟩
  rw [hc] at hmiss
  simp only at hmiss
  subst hmiss
  have hq' : QueryAccessTokenWith E c (SendHttpRequestWith E c (GetAccessToken E c fuel)) w =
      (.err e, w1) := hfail
  simp only [GetAccessToken, hc, hq']

/-- Claim C5 at the fresh sample state, with a remote service that refuses the
connection: one request was sent and nothing is cached. -/
theorem GetAccessToken_exchange_failure_witness :
    GetAccessToken (sampleEnv (.doErr "connection refused") (.doErr "down")) sampleClient 1
        freshWorld
      = (.err "connection refused",
          { freshWorld with sent :=
              [exchangeRequest (sampleEnv (.doErr "connection refused") (.doErr "down"))
                sampleClient] }) ∧
      ([] : List (String × CacheItem)) = freshWorld.cache ∧ 0 = freshWorld.now ∧
      ([exchangeRequest (sampleEnv (.doErr "connection refused") (.doErr "down")) sampleClient]
          = freshWorld.sent ∨
        ∃ r, [exchangeRequest (sampleEnv (.doErr "connection refused") (.doErr "down"))
          sampleClient] = freshWorld.sent ++ [r]) :=
  GetAccessToken_exchange_failure (sampleEnv (.doErr "connection refused") (.doErr "down"))
    sampleClient freshWorld
    { freshWorld with sent :=
        [exchangeRequest (sampleEnv (.doErr "connection refused") (.doErr "down")) sampleClient] }
    "connection refused" 0 rfl rfl rfl

/-- The error that `checkError` extracts from the exchange response is the
failure of the exchange call, unchanged. -/
theorem QueryAccessToken_remote_error (E : Env) (c : Client) (fuel : Nat) (w : World) (b : Body)
    (e : GoError)
    (hdoc : strings_HasPrefix E.K.AccessTokenDocument "query accessToken" = true)
    (hpost : E.K.HttpMethodPost ≠ E.K.HttpMethodGet)
    (hnew : E.newRequestErr E.K.HttpMethodPost (c.Host ++ E.K.CoreAuthingGraphqlPath) = none)
    (hdo : E.httpDo w.sent (exchangeRequest E c) = .response b none)
    (hchk : checkError b = some e) :
    QueryAccessToken E c fuel w = (.err e, { w with sent := w.sent ++ [exchangeRequest E c] }) := by
  rw [QueryAccessToken_eq E c fuel w hdoc hpost hnew, hdo]
  simp only [hchk]

/-- After a cache miss that ended in a credential `t`, a further call at any time
within 24 hours returns `t` from the cache and sends nothing. -/
theorem GetAccessToken_second_call_within_ttl (E : Env) (c : Client) (w w1 : World) (t : String)
    (fuel fuel2 d : Nat)
    (hmiss : (GetCache w (TokenCacheKeyPrefix ++ c.userPoolId)).2 = false)
    (hfirst : GetAccessToken E c (fuel + 1) w = (.ok t, w1))
    (hd : d ≤ 24 * time_Hour) :
    GetAccessToken E c (fuel2 + 1) { w1 with now := w1.now + d }
      = (.ok t, { w1 with now := w1.now + d }) := by
  rcases hc : GetCache w (TokenCacheKeyPrefix ++ c.userPoolId) with ⟨v, found⟩
  rw [hc] at hmiss
  simp only at hmiss
  subst hmiss
  simp only [GetAccessToken, hc] at hfirst
  rcases hq : QueryAccessTokenWith E c (SendHttpRequestWith E c (GetAccessToken E c fuel)) w
    with ⟨res, w2⟩
  rw [hq] at hfirst
  cases res with
  | err e => simp at hfirst
  | panic => simp at hfirst
  | outOfFuel => simp at hfirst
  | ok tok =>
    simp only at hfirst
    cases htk : tok.AccessToken with
    | none => rw [htk] at hfirst; simp at hfirst
    | some t2 =>
      rw [htk] at hfirst
      simp only [Prod.mk.injEq, Res.ok.injEq] at hfirst
      obtain ⟨ht, hw⟩ := hfirst
      subst ht
      subst hw
      apply GetAccessToken_cache_hit E c _ t2 (w2.now + 24 * time_Hour) fuel2
      · exact cacheEntry_SetCache_same w2 _ _ _
      · show w2.now + d ≤ w2.now + 24 * time_Hour
        omega

/-! ## Headers of the requests built by `SendHttpRequest` -/

/-- A request built by `buildRequest` carries no header, or only `Content-Type`. -/
theorem buildRequest_headers (E : Env) (url method query : String) (vars : Vars) (r : Request)
    (h : buildRequest E url method query vars = .ok (some r)) :
    r.headers = [] ∨ r.headers = [("Content-Type", "application/json")] := by
  unfold buildRequest at h
  split at h
  · split at h
    · split at h <;> simp at h
    · simp only [Res.ok.injEq, Option.some.injEq] at h
      subst h
      exact Or.inl rfl
  · split at h
    · simp at h
    · simp only [Res.ok.injEq, Option.some.injEq] at h
      subst h
      exact Or.inr rfl

/-- The headers after the identification headers were added. -/
theorem addIdHeaders_headers (E : Env) (c : Client) (r : Request) :
    (addIdHeaders E c r).headers =
      r.headers ++ [("x-authing-userpool-id", c.userPoolId), ("x-authing-request-from", E.K.SdkType),
        ("x-authing-sdk-version", E.K.SdkVersion), ("x-authing-app-id", E.K.AppId)] := by
  simp [addIdHeaders, Request.addHeader]

/-- Claim C6: for every call of `SendHttpRequest`. When the query begins with
`query accessToken`, the result does not depend on the credential provider at
all, and the request handed to the HTTP client (if any) has no `Authorization`
header. Otherwise, unless the request could not be built, `GetAccessToken` is
called, a request is handed to the HTTP client only after it returned a token,
and the one `Authorization` header of that request is `Bearer <token>`. In both cases the request carries the headers
`x-authing-userpool-id` (the client's tenant id), `x-authing-request-from` and
`x-authing-sdk-version`. -/
theorem SendHttpRequest_bearer_header (E : Env) (c : Client) (fuel : Nat)
    (url method query : String) (vars : Vars) (w : World) :
    if strings_HasPrefix query "query accessToken" = true then
      (∀ g, SendHttpRequestWith E c g url method query vars w
          = SendHttpRequest E c fuel url method query vars w) ∧
        ((SendHttpRequest E c fuel url method query vars w).2.sent = w.sent ∨
          ∃ r, (SendHttpRequest E c fuel url method query vars w).2.sent = w.sent ++ [r] ∧
            (∀ v, ("Authorization", v) ∉ r.headers) ∧
            ("x-authing-userpool-id", c.userPoolId) ∈ r.headers ∧
            ("x-authing-request-from", E.K.SdkType) ∈ r.headers ∧
            ("x-authing-sdk-version", E.K.SdkVersion) ∈ r.headers)
    else
      ((SendHttpRequest E c fuel url method query vars w).2.sent = w.sent ∨
        (SendHttpRequest E c fuel url method query vars w).2.sent
          = (GetAccessToken E c fuel w).2.sent ∨
        ∃ token r, (GetAccessToken E c fuel w).1 = .ok token ∧
          (SendHttpRequest E c fuel url method query vars w).2.sent
            = (GetAccessToken E c fuel w).2.sent ++ [r] ∧
          ("Authorization", "Bearer " ++ token) ∈ r.headers ∧
          (∀ v, ("Authorization", v) ∈ r.headers → v = "Bearer " ++ token) ∧
          ("x-authing-userpool-id", c.userPoolId) ∈ r.headers ∧
          ("x-authing-request-from", E.K.SdkType) ∈ r.headers ∧
          ("x-authing-sdk-version", E.K.SdkVersion) ∈ r.headers) := by
  by_cases hpre : strings_HasPrefix query "query accessToken" = true
  · rw [if_pos hpre]
    refine ⟨fun g => ?_, ?_⟩
    · rw [SendHttpRequest, SendHttpRequestWith_exchange_query _ _ _ _ _ _ _ _ hpre,
        SendHttpRequestWith_exchange_query _ _ _ _ _ _ _ _ hpre]
    · rw [SendHttpRequest, SendHttpRequestWith_exchange_query _ _ _ _ _ _ _ _ hpre]
      cases hb : buildRequest E url method query vars with
      | err e => exact Or.inl rfl
      | panic => exact Or.inl rfl
      | outOfFuel => exact Or.inl rfl
      | ok req =>
        simp only
        rcases (doSend_world E c req w).2.2 with h | ⟨r, hr, h⟩
        · exact Or.inl h
        · subst hr
          refine Or.inr ⟨_, h, ?_, ?_, ?_, ?_⟩
          · intro v
            rw [addIdHeaders_headers]
            rcases buildRequest_headers E url method query vars r hb with h0 | h0 <;>
              simp [h0]
          · rw [addIdHeaders_headers]; simp
          · rw [addIdHeaders_headers]; simp
          · rw [addIdHeaders_headers]; simp
  · rw [if_neg hpre]
    simp only [SendHttpRequest, SendHttpRequestWith, hpre]
    cases hb : buildRequest E url method query vars with
    | err e => exact Or.inl rfl
    | panic => exact Or.inl rfl
    | outOfFuel => exact Or.inl rfl
    | ok req =>
      simp only
      rcases hg : GetAccessToken E c fuel w with ⟨res, w1⟩
      cases res with
      | err e => exact Or.inr (Or.inl rfl)
      | panic => exact Or.inr (Or.inl rfl)
      | outOfFuel => exact Or.inr (Or.inl rfl)
      | ok token =>
        cases req with
        | none => exact Or.inr (Or.inl rfl)
        | some r0 =>
          simp only [Bool.not_true, Bool.false_eq_true, if_false, Bool.not_false, if_true]
          rcases (doSend_world E c (some (r0.addHeader "Authorization" ("Bearer " ++ token))) w1).2.2
            with h | ⟨r, hr, h⟩
          · exact Or.inr (Or.inl h)
          · simp only [Option.some.injEq] at hr
            subst hr
            refine Or.inr (Or.inr ⟨token, _, rfl, h, ?_, ?_, ?_, ?_, ?_⟩)
            · rw [addIdHeaders_headers]; simp [Request.addHeader]
            · intro v
              rw [addIdHeaders_headers]
              rcases buildRequest_headers E url method query vars r0 hb with h0 | h0 <;>
                simp [h0, Request.addHeader]
            · rw [addIdHeaders_headers]; simp
            · rw [addIdHeaders_headers]; simp
            · rw [addIdHeaders_headers]; simp

/-! ## The REST envelope -/

/-- Claim C7, at the envelope `{"code":500,"data":"x","message":"boom"}`: the code
is not 200 and the message is `boom`, but `IsPasswordValid` fails with an empty
message, because decoding stops at `data` before `message` is read and the
decode error is dropped. With a well-formed `data` in the same place the failure
carries `boom`, and with code 200 the decoded data is returned. -/
theorem IsPasswordValid_loses_message_behind_ill_shaped_data :
    (IsPasswordValid (sampleEnv (.doErr "down")
          (.response (.json (.obj [("code", .num 500), ("data", .str "x"),
            ("message", .str "boom")])) none))
        sampleClient 1 "p4ssw0rd" warmWorld).1 = .err "" ∧
      (IsPasswordValid (sampleEnv (.doErr "down")
          (.response (.json (.obj [("code", .num 500),
            ("data", .obj [("valid", .bool true), ("message", .str "ok")]),
            ("message", .str "boom")])) none))
        sampleClient 1 "p4ssw0rd" warmWorld).1 = .err "boom" ∧
      (IsPasswordValid (sampleEnv (.doErr "down")
          (.response (.json (.obj [("code", .num 200), ("message", .str "ok"),
            ("data", .obj [("valid", .bool true), ("message", .str "strong")])])) none))
        sampleClient 1 "p4ssw0rd" warmWorld).1 = .ok ⟨true, "strong"⟩ :=
  ⟨rfl, rfl, rfl⟩

/-- After a value of the wrong type `jsoniter` reads on from where the failed
read left the head. A one-byte `data` leaves it on the comma, so the `message`
after it is still decoded; inside `data`, a one-byte `valid` does not keep the
`message` next to it from being decoded. -/
theorem IsPasswordValid_reads_on_after_type_error :
    (IsPasswordValid (sampleEnv (.doErr "down")
          (.response (.json (.obj [("code", .num 500), ("data", .num 5),
            ("message", .str "boom")])) none))
        sampleClient 1 "p4ssw0rd" warmWorld).1 = .err "boom" ∧
      (IsPasswordValid (sampleEnv (.doErr "down")
          (.response (.json (.obj [("code", .num 500),
            ("data", .obj [("valid", .num 5)]), ("message", .str "m")])) none))
        sampleClient 1 "p4ssw0rd" warmWorld).1 = .err "m" ∧
      (IsPasswordValid (sampleEnv (.doErr "down")
          (.response (.json (.obj [("code", .num 200),
            ("data", .obj [("valid", .num 5), ("message", .str "m")])])) none))
        sampleClient 1 "p4ssw0rd" warmWorld).1 = .ok ⟨false, "m"⟩ :=
  ⟨rfl, rfl, rfl⟩

end Authing
